import Mathlib

/-!
# Verification of the `mcp-node-fetch` tool server (`src/index.ts`)

A shallow embedding of the request-execution and response-transformation
pipeline of the three tools `fetch-url`, `check-status` and
`extract-html-fragment`.  The handlers in the source delegate to three
opaque capabilities, which are modelled here as explicit parameters or
as executable model functions:

* the HTTP client (`fetch` from undici).  A handler receives a function
  `fetchFn : String → ReqOptions → Except String HttpResponse`; a thrown
  transport error is the `Except.error` case, carrying the error message.
  A concrete executable instance `fetchExchange`, modelled from the spec
  (redirect-following behaviour of the HTTP capability per spec section 4.2,
  which lives in undici and is absent from `src/`), is used for the
  redirect-policy claims.
* the HTML parser and CSS selector engine (JSDOM).  A parsed document is
  a `DomDocument`: a list of elements in document order, each recording
  its serialized outer markup, its id attribute and the set of selector
  strings that match it.  The handlers receive the parser as a function
  `parseHTML : String → DomDocument`.
* the JSON codec (`response.json()` / `JSON.stringify(v, null, 2)`).
  This is modelled executably by `jsonParse` and `jsonStringify` below;
  `jsonStringify` reproduces the two-space pretty-printing of
  `JSON.stringify(v, null, 2)`.  JSON numbers are modelled at integer
  precision (the host's binary floating point is outside the embedding).

JavaScript truthiness tests in the source (`body || undefined`,
`if (timeout)`, `if (args.fragmentSelector)`, `if (anchorId)`) are
modelled faithfully: the empty string and the number 0 are falsy.
-/

/-- The response types accepted by the `fetch-url` tool
(`responseType: z.enum(["text", "json", "binary", "html-fragment"])`). -/
inductive RespType where
  | text
  | json
  | binary
  | htmlFragment
deriving DecidableEq, Repr

/-- Arguments of the `fetch-url` tool after zod validation
(`FetchUrlArgsSchema`), defaults already applied.  `headers`, `body` and
`timeout` are optional; the method is kept as its string name. -/
structure FetchUrlArgs where
  url : String
  method : String
  headers : Option (List (String × String))
  body : Option String
  timeout : Option Nat
  responseType : RespType
  followRedirects : Bool
  fragmentSelector : Option String
deriving Repr

/-- Arguments of the `extract-html-fragment` tool after zod validation
(`ExtractHtmlFragmentArgsSchema`). -/
structure ExtractArgs where
  url : String
  selector : String
  anchorId : Option String
  method : String
  headers : Option (List (String × String))
  body : Option String
  timeout : Option Nat
  followRedirects : Bool
deriving Repr

/-- Arguments of the `check-status` tool after zod validation
(`CheckStatusArgsSchema`). -/
structure CheckStatusArgs where
  url : String
  timeout : Option Nat
deriving Repr

/-- The redirect mode passed to the HTTP client:
`redirect: followRedirects ? "follow" : "manual"`. -/
inductive RedirectMode where
  | follow
  | manual
deriving DecidableEq, Repr

/-- The request options object each handler builds and passes to `fetch`.
`headersTimeout`/`bodyTimeout` are the undici-specific timeout options;
`none` means the option was not set (the client default applies). -/
structure ReqOptions where
  method : String
  headers : List (String × String)
  body : Option String
  redirect : RedirectMode
  headersTimeout : Option Nat
  bodyTimeout : Option Nat
deriving DecidableEq, Repr

/-- JavaScript `x || undefined` on an optional string: the empty string is
falsy and is coerced to absent. -/
def strTruthy : Option String → Option String
  | some s => if s = "" then none else some s
  | none => none

/-- JavaScript `if (timeout)` on an optional number: 0 is falsy. -/
def numTruthy : Option Nat → Option Nat
  | some t => if t = 0 then none else some t
  | none => none

/-- The options built by `handleFetchUrl` (source lines 595-607):
`{ method, headers: headers || {}, body: body || undefined,
redirect: followRedirects ? "follow" : "manual" }`, plus
`bodyTimeout`/`headersTimeout` both set to `timeout` when it is truthy. -/
def mkFetchUrlOptions (a : FetchUrlArgs) : ReqOptions :=
  { method := a.method
    headers := a.headers.getD []
    body := strTruthy a.body
    redirect := if a.followRedirects then .follow else .manual
    headersTimeout := numTruthy a.timeout
    bodyTimeout := numTruthy a.timeout }

/-- The options built by `handleExtractHtmlFragment` (source lines 704-716):
identical shape to the `fetch-url` options. -/
def mkExtractOptions (a : ExtractArgs) : ReqOptions :=
  { method := a.method
    headers := a.headers.getD []
    body := strTruthy a.body
    redirect := if a.followRedirects then .follow else .manual
    headersTimeout := numTruthy a.timeout
    bodyTimeout := numTruthy a.timeout }

/-- The options built by `handleCheckStatus` (source lines 796-803):
`{ method: "HEAD" }` plus `headersTimeout` when `timeout` is truthy.
No `bodyTimeout` is set and no redirect mode is specified (the client
default, `follow`, applies). -/
def mkCheckStatusOptions (a : CheckStatusArgs) : ReqOptions :=
  { method := "HEAD"
    headers := []
    body := none
    redirect := .follow
    headersTimeout := numTruthy a.timeout
    bodyTimeout := none }

/-- A completed HTTP exchange as observed by a handler: the fields of the
fetch `Response` object that the handlers read.  `url` is the response's
final URL (after any transparent redirects); `body` is the full body text. -/
structure HttpResponse where
  status : Nat
  statusText : String
  headers : List (String × String)
  url : String
  body : String
deriving DecidableEq, Repr

/-- `response.ok` of the WHATWG fetch standard (as implemented by undici):
true exactly when the status is in the range 200 to 299 inclusive. -/
def respOk (r : HttpResponse) : Bool :=
  decide (200 ≤ r.status ∧ r.status ≤ 299)

/-- A DOM element as used by the handlers: its serialized outer markup
(`outerHTML`), its id attribute and the selector strings that match it.
The selector engine is opaque to the handlers, so matching is recorded
extensionally. -/
structure DomElement where
  outerHTML : String
  idAttr : Option String
  matchedBy : List String
deriving DecidableEq, Repr, Inhabited

/-- A parsed HTML document: its elements in document order. -/
structure DomDocument where
  elements : List DomElement
deriving DecidableEq, Repr

/-- `document.querySelectorAll(sel)`: the elements matched by `sel`, in
document order (an order-preserving filter of the document's elements). -/
def querySelectorAll (d : DomDocument) (sel : String) : List DomElement :=
  d.elements.filter (fun e => e.matchedBy.contains sel)

/-- `document.getElementById(i)`: the first element whose id attribute
equals `i`. -/
def getElementById (d : DomDocument) (i : String) : Option DomElement :=
  d.elements.find? (fun e => e.idAttr == some i)

/-! ## JSON model

An executable model of the JavaScript JSON codec used by the `json`
branch of `handleFetchUrl` (`response.json()` and
`JSON.stringify(jsonContent, null, 2)`).  Numbers are modelled at
integer precision. -/

/-- A JSON value. -/
inductive Json where
  | null : Json
  | bool : Bool → Json
  | num : Int → Json
  | str : String → Json
  | arr : List Json → Json
  | obj : List (String × Json) → Json
deriving Inhabited

/-- A run of `n` spaces, as emitted by the two-space indentation of
`JSON.stringify(v, null, 2)`. -/
def spacesChars : Nat → List Char
  | 0 => []
  | n + 1 => ' ' :: spacesChars n

/-- The decimal digit character for `n < 10`. -/
def digitChar (n : Nat) : Char := Char.ofNat (48 + n)

/-- The decimal digit characters of a natural number, most significant
first. -/
def natChars (n : Nat) : List Char :=
  if h : n < 10 then [digitChar n]
  else natChars (n / 10) ++ [digitChar (n % 10)]
decreasing_by exact Nat.div_lt_self (by omega) (by omega)

/-- The decimal representation of an integer. -/
def intChars (i : Int) : List Char :=
  if i < 0 then '-' :: natChars i.natAbs else natChars i.natAbs

/-- JSON string escaping of one character, as performed by
`JSON.stringify`: quote, backslash and the common control characters get
a two-character escape; everything else is emitted verbatim. -/
def escChar (c : Char) : List Char :=
  if c = '"' then ['\\', '"']
  else if c = '\\' then ['\\', '\\']
  else if c = '\n' then ['\\', 'n']
  else if c = '\t' then ['\\', 't']
  else if c = '\r' then ['\\', 'r']
  else [c]

/-- JSON string escaping of a character sequence. -/
def escChars : List Char → List Char
  | [] => []
  | c :: cs => escChar c ++ escChars cs

/-- A JSON string literal: the escaped characters between double quotes. -/
def quoteChars (s : List Char) : List Char :=
  '"' :: (escChars s ++ ['"'])

mutual
/-- The characters emitted by `JSON.stringify(v, null, 2)` for the value
`v` when the value itself starts at indentation level `ind`. -/
def renderJson (ind : Nat) : Json → List Char
  | .null => ['n', 'u', 'l', 'l']
  | .bool b => cond b ['t', 'r', 'u', 'e'] ['f', 'a', 'l', 's', 'e']
  | .num i => intChars i
  | .str s => quoteChars s.data
  | .arr [] => ['[', ']']
  | .arr (x :: xs) =>
      '[' :: '\n' :: (renderItems (ind + 2) x xs ++ '\n' :: (spacesChars ind ++ [']']))
  | .obj [] => ['\x7b', '\x7d']
  | .obj (f :: fs) =>
      '\x7b' :: '\n' :: (renderFields (ind + 2) f fs ++ '\n' :: (spacesChars ind ++ ['\x7d']))
termination_by j => sizeOf j
decreasing_by all_goals (simp_wf <;> omega)

/-- The lines for the items of a non-empty array, each indented by `ind`
spaces, separated by a comma and a newline. -/
def renderItems (ind : Nat) : Json → List Json → List Char
  | x, [] => spacesChars ind ++ renderJson ind x
  | x, y :: ys =>
      spacesChars ind ++ (renderJson ind x ++ ',' :: '\n' :: renderItems ind y ys)
termination_by x xs => 1 + sizeOf x + sizeOf xs
decreasing_by all_goals (simp_wf <;> omega)

/-- The lines for the fields of a non-empty object, each indented by `ind`
spaces, separated by a comma and a newline. -/
def renderFields (ind : Nat) : String × Json → List (String × Json) → List Char
  | (k, v), [] =>
      spacesChars ind ++ (quoteChars k.data ++ ':' :: ' ' :: renderJson ind v)
  | (k, v), f :: fs =>
      spacesChars ind ++ (quoteChars k.data ++ ':' :: ' ' :: (renderJson ind v ++
        ',' :: '\n' :: renderFields ind f fs))
termination_by f fs => 1 + sizeOf f + sizeOf fs
decreasing_by all_goals (simp_wf <;> omega)
end

/-- `JSON.stringify(v, null, 2)`. -/
def jsonStringify (v : Json) : String := String.mk (renderJson 0 v)

/-- The whitespace characters skipped by the JSON parser. -/
def isWsChar (c : Char) : Bool :=
  c = ' ' || c = '\n' || c = '\t' || c = '\r'

/-- Drop leading whitespace. -/
def skipWs : List Char → List Char
  | [] => []
  | c :: cs => if isWsChar c then skipWs cs else c :: cs

/-- Match a literal prefix; returns the remainder on success. -/
def stripPre : List Char → List Char → Option (List Char)
  | [], input => some input
  | _ :: _, [] => none
  | p :: ps, c :: cs => if c = p then stripPre ps cs else none

/-- Whether a list starts with a given character. -/
def headIs : List Char → Char → Bool
  | [], _ => false
  | c :: _, d => c == d

/-- Undo one JSON string escape. -/
def unescChar (c : Char) : Option Char :=
  if c = '"' then some '"'
  else if c = '\\' then some '\\'
  else if c = 'n' then some '\n'
  else if c = 't' then some '\t'
  else if c = 'r' then some '\r'
  else none

/-- Parse the body of a JSON string literal (the opening quote already
consumed): the decoded characters and the remainder after the closing
quote. -/
def parseStrBody : List Char → Option (List Char × List Char)
  | [] => none
  | c :: cs =>
    if c = '"' then some ([], cs)
    else if c = '\\' then
      match cs with
      | [] => none
      | e :: cs2 =>
        match unescChar e with
        | none => none
        | some d =>
          match parseStrBody cs2 with
          | none => none
          | some (s, r) => some (d :: s, r)
    else
      match parseStrBody cs with
      | none => none
      | some (s, r) => some (c :: s, r)

/-- Split off the maximal leading run of decimal digits. -/
def takeDigits : List Char → List Char × List Char
  | [] => ([], [])
  | c :: cs =>
    if c.isDigit then
      let (ds, r) := takeDigits cs
      (c :: ds, r)
    else ([], c :: cs)

/-- The value of a digit run, accumulator style. -/
def digsVal : List Char → Nat → Nat
  | [], acc => acc
  | c :: cs, acc => digsVal cs (acc * 10 + (c.toNat - 48))

/-- Parse the digits of a JSON number (any leading minus sign already
consumed). -/
def parseNumAfter (neg : Bool) (input : List Char) : Option (Json × List Char) :=
  match takeDigits input with
  | ([], _) => none
  | (ds, r) =>
      some (.num (if neg then -(digsVal ds 0 : Int) else (digsVal ds 0 : Int)), r)

mutual
/-- Parse one JSON value (fuel-bounded recursion): the value and the
unconsumed remainder. -/
def parseVal : Nat → List Char → Option (Json × List Char)
  | 0, _ => none
  | fuel + 1, input =>
    match skipWs input with
    | [] => none
    | c :: cs =>
      if c = 'n' then (stripPre ['u', 'l', 'l'] cs).map (fun r => (.null, r))
      else if c = 't' then (stripPre ['r', 'u', 'e'] cs).map (fun r => (.bool true, r))
      else if c = 'f' then (stripPre ['a', 'l', 's', 'e'] cs).map (fun r => (.bool false, r))
      else if c = '"' then
        match parseStrBody cs with
        | none => none
        | some (s, r) => some (.str (String.mk s), r)
      else if c = '[' then
        let rest := skipWs cs
        cond (headIs rest ']') (some (.arr [], rest.tail))
          (match parseItems fuel rest with
           | none => none
           | some (xs, r) => some (.arr xs, r))
      else if c = '\x7b' then
        let rest := skipWs cs
        cond (headIs rest '\x7d') (some (.obj [], rest.tail))
          (match parseFields fuel rest with
           | none => none
           | some (fs, r) => some (.obj fs, r))
      else if c = '-' then parseNumAfter true cs
      else if c.isDigit then parseNumAfter false (c :: cs)
      else none

/-- Parse the items of a non-empty array, including the closing bracket. -/
def parseItems : Nat → List Char → Option (List Json × List Char)
  | 0, _ => none
  | fuel + 1, input =>
    match parseVal fuel input with
    | none => none
    | some (v, r) =>
      let r2 := skipWs r
      cond (headIs r2 ',')
        (match parseItems fuel r2.tail with
         | none => none
         | some (vs, r3) => some (v :: vs, r3))
        (cond (headIs r2 ']') (some ([v], r2.tail)) none)

/-- Parse the fields of a non-empty object, including the closing brace. -/
def parseFields : Nat → List Char → Option (List (String × Json) × List Char)
  | 0, _ => none
  | fuel + 1, input =>
    match skipWs input with
    | [] => none
    | c :: cs =>
      if c = '"' then
        match parseStrBody cs with
        | none => none
        | some (k, r) =>
          match skipWs r with
          | [] => none
          | c2 :: cs2 =>
            if c2 = ':' then
              match parseVal fuel cs2 with
              | none => none
              | some (v, r3) =>
                let r4 := skipWs r3
                cond (headIs r4 ',')
                  (match parseFields fuel r4.tail with
                   | none => none
                   | some (fs, r5) => some ((String.mk k, v) :: fs, r5))
                  (cond (headIs r4 '\x7d') (some ([(String.mk k, v)], r4.tail)) none)
            else none
      else none
end

/-- `JSON.parse(s)`, wrapped the way a JavaScript caller observes it: a
parsed value, or a parse-failure message. -/
def jsonParse (s : String) : Except String Json :=
  match parseVal (s.data.length + 1) s.data with
  | none => .error "Unexpected token in JSON"
  | some (v, rest) =>
      if skipWs rest = [] then .ok v
      else .error "Unexpected non-whitespace character after JSON data"

/-! ## Base64 (binary branch)

A model of `Buffer.from(buffer).toString("base64")` over the UTF-8 bytes
of the body. -/

/-- The base64 alphabet. -/
def base64Table : List Char :=
  "ABCDEFGHIJKLMNOPQRSTUVWXYZabcdefghijklmnopqrstuvwxyz0123456789+/".data

/-- The base64 digit for a 6-bit value. -/
def b64Digit (n : Nat) : Char := base64Table.getD n 'A'

/-- Base64-encode a byte list, three bytes at a time, padding with `=`. -/
def b64Chunks : List Nat → List Char
  | [] => []
  | [b1] =>
      [b64Digit (b1 / 4), b64Digit (b1 % 4 * 16), '=', '=']
  | [b1, b2] =>
      [b64Digit (b1 / 4), b64Digit (b1 % 4 * 16 + b2 / 16), b64Digit (b2 % 16 * 4), '=']
  | b1 :: b2 :: b3 :: rest =>
      b64Digit (b1 / 4) :: b64Digit (b1 % 4 * 16 + b2 / 16) ::
        b64Digit (b2 % 16 * 4 + b3 / 64) :: b64Digit (b3 % 64) :: b64Chunks rest

/-- The UTF-8 bytes of one code point. -/
def utf8Bytes (n : Nat) : List Nat :=
  if n < 128 then [n]
  else if n < 2048 then [192 + n / 64, 128 + n % 64]
  else if n < 65536 then [224 + n / 4096, 128 + n / 64 % 64, 128 + n % 64]
  else [240 + n / 262144, 128 + n / 4096 % 64, 128 + n / 64 % 64, 128 + n % 64]

/-- `Buffer.from(buffer).toString("base64")` on the UTF-8 bytes of `s`. -/
def base64Encode (s : String) : String :=
  String.mk (b64Chunks (s.data.map (fun c => utf8Bytes c.toNat)).join)

/-! ## Results and handlers -/

/-- The result object assembled by `handleFetchUrl` (source lines 613-672).
`encoding`, `matchCount` and `contentType` are only present on the
branches that set them. -/
structure FetchResult where
  status : Nat
  statusText : String
  headers : List (String × String)
  url : String
  content : String
  encoding : Option String
  matchCount : Option Nat
  contentType : Option String
deriving DecidableEq, Repr

/-- The `html` field of an `extract-html-fragment` result: a single string
for exactly one match, an ordered sequence of strings otherwise
(source lines 757-764). -/
inductive ExtractHtml where
  | single : String → ExtractHtml
  | multiple : List String → ExtractHtml
deriving DecidableEq, Repr

/-- The result object assembled by `handleExtractHtmlFragment`
(source lines 748-764). -/
structure ExtractResult where
  status : Nat
  statusText : String
  url : String
  selector : String
  matchCount : Nat
  html : ExtractHtml
deriving DecidableEq, Repr

/-- The result object assembled by `handleCheckStatus`
(source lines 808-815). -/
structure CheckStatusResult where
  status : Nat
  statusText : String
  headers : List (String × String)
  url : String
  isAvailable : Bool
deriving DecidableEq, Repr

/-- What a handler returns before the catch-all wraps it into the outward
envelope: a result, or the message of the error it threw. -/
abbrev HandlerOut (α : Type) := Except String α

/-- The outward success/error envelope of a tool call (`CallToolResult`
with a single text item). -/
structure ToolEnvelope where
  isError : Bool
  text : String
deriving DecidableEq, Repr

/-- The type of the HTTP capability as the handlers consume it: a URL and
request options produce a completed response, or a thrown transport-level
error message. -/
abbrev FetchFn := String → ReqOptions → Except String HttpResponse

/-- `handleFetchUrl` (source lines 587-694), up to but not including the
outward envelope: builds the request options, performs the exchange, and
transforms the response according to `responseType`.

* `json` (lines 622-629): parse the body; on failure throw
  `Failed to parse response as JSON: <message>`; on success the content is
  the parsed value re-serialized with `JSON.stringify(v, null, 2)`.
* `binary` (lines 631-635): base64 content, `encoding = "base64"`.
* `html-fragment` (lines 637-666): parse the body with JSDOM; if a truthy
  `fragmentSelector` is given, select; zero matches throws
  `No elements found matching selector "<sel>"` (wrapped by the inner
  catch into `Failed to parse or extract HTML fragment: ...`); one match
  yields its outer markup, several matches are newline-joined;
  `matchCount` is set; without a truthy selector the content is the raw
  body text.  Both html-fragment success paths set
  `contentType = "text/html"`.
* `text` (default, lines 668-671): the raw body text. -/
def handleFetchUrl (parseHTML : String → DomDocument) (a : FetchUrlArgs)
    (fetchFn : FetchFn) : HandlerOut FetchResult :=
  match fetchFn a.url (mkFetchUrlOptions a) with
  | .error e => .error e
  | .ok response =>
    let base : FetchResult :=
      { status := response.status
        statusText := response.statusText
        headers := response.headers
        url := response.url
        content := ""
        encoding := none
        matchCount := none
        contentType := none }
    match a.responseType with
    | .json =>
      match jsonParse response.body with
      | .error m => .error ("Failed to parse response as JSON: " ++ m)
      | .ok v => .ok { base with content := jsonStringify v }
    | .binary =>
      .ok { base with content := base64Encode response.body, encoding := some "base64" }
    | .htmlFragment =>
      let htmlContent := response.body
      let document := parseHTML htmlContent
      match strTruthy a.fragmentSelector with
      | some sel =>
        let elements := querySelectorAll document sel
        if elements.length = 0 then
          .error ("Failed to parse or extract HTML fragment: " ++
            "No elements found matching selector \"" ++ sel ++ "\"")
        else
          .ok { base with
                content :=
                  if elements.length = 1 then
                    ((elements.headD default).outerHTML)
                  else
                    String.intercalate "\n" (elements.map (fun e => e.outerHTML))
                matchCount := some elements.length
                contentType := some "text/html" }
      | none =>
        .ok { base with content := htmlContent, contentType := some "text/html" }
    | .text =>
      .ok { base with content := response.body }

/-- `handleExtractHtmlFragment` (source lines 697-786), up to but not
including the outward envelope: builds the request options, performs the
exchange, rejects any non-ok status with
`Failed to fetch URL: HTTP <status> <statusText>` before reading the
body, applies the anchor-precondition gate (a truthy `anchorId` must name
an existing element, else `Anchor element with ID "<id>" not found`),
then selects; zero matches throw
`No elements found matching selector "<sel>"`; one match yields its
outer markup as a single string, several matches an ordered list. -/
def handleExtractHtmlFragment (parseHTML : String → DomDocument)
    (a : ExtractArgs) (fetchFn : FetchFn) : HandlerOut ExtractResult :=
  match fetchFn a.url (mkExtractOptions a) with
  | .error e => .error e
  | .ok response =>
    if respOk response = false then
      .error ("Failed to fetch URL: HTTP " ++ toString response.status ++ " " ++
        response.statusText)
    else
      let document := parseHTML response.body
      let anchorFailure : Option String :=
        match strTruthy a.anchorId with
        | some aid =>
          match getElementById document aid with
          | none => some ("Anchor element with ID \"" ++ aid ++ "\" not found")
          | some _ => none
        | none => none
      match anchorFailure with
      | some m => .error m
      | none =>
        let elements := querySelectorAll document a.selector
        if elements.length = 0 then
          .error ("No elements found matching selector \"" ++ a.selector ++ "\"")
        else
          .ok { status := response.status
                statusText := response.statusText
                url := response.url
                selector := a.selector
                matchCount := elements.length
                html :=
                  if elements.length = 1 then
                    .single ((elements.headD default).outerHTML)
                  else
                    .multiple (elements.map (fun e => e.outerHTML)) }

/-- `handleCheckStatus` (source lines 789-837), up to but not including
the outward envelope: a HEAD exchange whose result records the status
line, headers, final URL and `isAvailable: response.ok`. -/
def handleCheckStatus (a : CheckStatusArgs) (fetchFn : FetchFn) :
    HandlerOut CheckStatusResult :=
  match fetchFn a.url (mkCheckStatusOptions a) with
  | .error e => .error e
  | .ok response =>
    .ok { status := response.status
          statusText := response.statusText
          headers := response.headers
          url := response.url
          isAvailable := respOk response }

/-- The outward envelope of an error: `isError: true` and the thrown
message behind an operation-specific tag (the catch blocks at source
lines 682-693, 774-785 and 825-836). -/
def errorEnvelope (tag msg : String) : ToolEnvelope :=
  { isError := true, text := tag ++ msg }

/-- The `fetch-url` tool: handler output wrapped into the outward
envelope.  On success the serialized result object is not modelled
field-by-field here; the structured result is what the claims are about. -/
def fetchUrlTool (parseHTML : String → DomDocument) (a : FetchUrlArgs)
    (fetchFn : FetchFn) : ToolEnvelope :=
  match handleFetchUrl parseHTML a fetchFn with
  | .ok _ => { isError := false, text := "" }
  | .error m => errorEnvelope "Error fetching URL: " m

/-- The `extract-html-fragment` tool: handler output wrapped into the
outward envelope. -/
def extractHtmlFragmentTool (parseHTML : String → DomDocument)
    (a : ExtractArgs) (fetchFn : FetchFn) : ToolEnvelope :=
  match handleExtractHtmlFragment parseHTML a fetchFn with
  | .ok _ => { isError := false, text := "" }
  | .error m => errorEnvelope "Error extracting HTML fragment: " m

/-- The `check-status` tool: handler output wrapped into the outward
envelope. -/
def checkStatusTool (a : CheckStatusArgs) (fetchFn : FetchFn) : ToolEnvelope :=
  match handleCheckStatus a fetchFn with
  | .ok _ => { isError := false, text := "" }
  | .error m => errorEnvelope "Error checking URL status: " m

/-! ## The HTTP capability with redirect policy

The redirect-following loop itself lives in the HTTP client (undici),
not in `src/`.  It is modelled from the spec here: "when `followRedirects`
is true, the exchange follows redirects transparently and
`HttpOutcome.finalUrl` reflects the last URL reached; when false, a
redirect response (3xx) is returned as-is without following, and
`finalUrl` equals the original request URL" (spec section 4.2). -/

/-- What the server behind one URL answers: status line, headers, body.
`none` models a connection-level fault at that URL. -/
structure PreResponse where
  status : Nat
  statusText : String
  headers : List (String × String)
  body : String
deriving DecidableEq, Repr

/-- A network: each URL either answers or faults. -/
def Network := String → Option PreResponse

/-- A network given by a finite table of URLs. -/
def netOf (l : List (String × PreResponse)) : Network :=
  fun u => (l.find? (fun p => p.1 == u)).map (fun p => p.2)

/-- The redirect status codes. -/
def isRedirectStatus (s : Nat) : Bool :=
  s = 301 || s = 302 || s = 303 || s = 307 || s = 308

/-- The first value of a (case-normalized) header name. -/
def getHeaderVal (hs : List (String × String)) (k : String) : Option String :=
  (hs.find? (fun p => p.1 == k)).map (fun p => p.2)

/-- Whether the answer at `u` redirects to a further URL: a redirect
status carrying a `location` header. -/
def redirectsTo (net : Network) (u : String) : Option String :=
  match net u with
  | none => none
  | some pre =>
    if isRedirectStatus pre.status then getHeaderVal pre.headers "location"
    else none

/-- Modelled from the spec: one HTTP exchange of the underlying client
(section 4.2; the loop lives in undici, absent from `src/`).  Under
`manual` the first answer is returned as-is and the response's `url` is
the request URL; under `follow` redirect answers bearing a `location`
header are followed, the hop count bounded by `fuel`, and the response's
`url` is the last URL reached.  A faulting URL is a thrown transport
error. -/
def fetchExchange (net : Network) : Nat → String → ReqOptions →
    Except String HttpResponse
  | 0, _, _ => .error "redirect count exceeded"
  | fuel + 1, url, opts =>
    match net url with
    | none => .error "fetch failed"
    | some pre =>
      match opts.redirect with
      | .manual =>
        .ok { status := pre.status, statusText := pre.statusText
              headers := pre.headers, url := url, body := pre.body }
      | .follow =>
        if isRedirectStatus pre.status then
          match getHeaderVal pre.headers "location" with
          | some loc => fetchExchange net fuel loc opts
          | none =>
            .ok { status := pre.status, statusText := pre.statusText
                  headers := pre.headers, url := url, body := pre.body }
        else
          .ok { status := pre.status, statusText := pre.statusText
                headers := pre.headers, url := url, body := pre.body }

/-- `v` is reachable from `u` by following zero or more redirect answers. -/
inductive RedirectReaches (net : Network) : String → String → Prop
  | refl (u : String) : RedirectReaches net u u
  | step (u v w : String) : redirectsTo net u = some v →
      RedirectReaches net v w → RedirectReaches net u w

/-! ## JSON round trip: auxiliary lemmas -/

theorem digitChar_toNat (n : Nat) (h : n < 10) : (digitChar n).toNat = 48 + n := by
  interval_cases n <;> decide

theorem digitChar_isDigit (n : Nat) (h : n < 10) : (digitChar n).isDigit = true := by
  interval_cases n <;> decide

theorem isDigit_ne (c d : Char) (hc : c.isDigit = true) (hd : d.isDigit = false) :
    c ≠ d := by
  intro h
  subst h
  rw [hc] at hd
  cases hd

theorem isDigit_not_ws (c : Char) (hc : c.isDigit = true) : isWsChar c = false := by
  unfold Char.isDigit at hc
  unfold isWsChar
  have h0 : ('0' : Char) ≤ c := by
    rcases Bool.and_eq_true _ _ |>.mp hc with ⟨h, _⟩
    exact of_decide_eq_true h
  have hsp : ¬ c = ' ' := by
    intro h; subst h; revert h0; decide
  have hnl : ¬ c = '\n' := by
    intro h; subst h; revert h0; decide
  have hta : ¬ c = '\t' := by
    intro h; subst h; revert h0; decide
  have hcr : ¬ c = '\r' := by
    intro h; subst h; revert h0; decide
  simp [hsp, hnl, hta, hcr]

theorem digsVal_append (l1 l2 : List Char) (acc : Nat) :
    digsVal (l1 ++ l2) acc = digsVal l2 (digsVal l1 acc) := by
  induction l1 generalizing acc with
  | nil => rfl
  | cons c cs ih => simp [digsVal, ih]

theorem natChars_ne_nil (n : Nat) : natChars n ≠ [] := by
  rw [natChars]
  split
  · simp
  · simp

theorem natChars_all_digits (n : Nat) : ∀ c ∈ natChars n, c.isDigit = true := by
  induction n using Nat.strong_induction_on with
  | _ n ih =>
    rw [natChars]
    split
    · next h =>
      intro c hc
      simp at hc
      subst hc
      exact digitChar_isDigit n h
    · next h =>
      intro c hc
      rw [List.mem_append] at hc
      rcases hc with hc | hc
      · exact ih (n / 10) (Nat.div_lt_self (by omega) (by omega)) c hc
      · simp at hc
        subst hc
        exact digitChar_isDigit (n % 10) (Nat.mod_lt _ (by omega))

theorem digsVal_natChars (n : Nat) :
    ∀ acc, digsVal (natChars n) acc = acc * 10 ^ (natChars n).length + n := by
  induction n using Nat.strong_induction_on with
  | _ n ih =>
    intro acc
    rw [natChars]
    split
    · next h =>
      simp [digsVal, digitChar_toNat n h]
    · next h =>
      rw [digsVal_append]
      rw [ih (n / 10) (Nat.div_lt_self (by omega) (by omega))]
      simp [digsVal, digitChar_toNat (n % 10) (Nat.mod_lt _ (by omega))]
      ring_nf
      have hn : 10 * (n / 10) + n % 10 = n := Nat.div_add_mod n 10
      omega

/-- The first character of the remainder is not a digit (or there is no
remainder): the condition under which a rendered number is parsed back
without absorbing following characters. -/
def noDigHead : List Char → Prop
  | [] => True
  | c :: _ => c.isDigit = false

theorem takeDigits_spec (ds rest : List Char) (hds : ∀ c ∈ ds, c.isDigit = true)
    (hrest : noDigHead rest) : takeDigits (ds ++ rest) = (ds, rest) := by
  induction ds with
  | nil =>
    simp only [List.nil_append]
    cases rest with
    | nil => rfl
    | cons c cs =>
      unfold noDigHead at hrest
      simp [takeDigits, hrest]
  | cons c cs ih =>
    have hc : c.isDigit = true := hds c (by simp)
    have := ih (fun d hd => hds d (by simp [hd]))
    simp [takeDigits, hc, this]

theorem parseNumAfter_natChars (neg : Bool) (n : Nat) (rest : List Char)
    (hrest : noDigHead rest) :
    parseNumAfter neg (natChars n ++ rest) =
      some (.num (if neg then -(n : Int) else (n : Int)), rest) := by
  unfold parseNumAfter
  rw [takeDigits_spec (natChars n) rest (natChars_all_digits n) hrest]
  have hne := natChars_ne_nil n
  cases h : natChars n with
  | nil => exact absurd h hne
  | cons c cs =>
    simp only [← h]
    have hv : digsVal (natChars n) 0 = n := by
      have := digsVal_natChars n 0
      simpa using this
    rw [h] at hv ⊢
    simp [hv]

theorem skipWs_ws_cons (c : Char) (l : List Char) (h : isWsChar c = true) :
    skipWs (c :: l) = skipWs l := by
  simp [skipWs, h]

theorem skipWs_not_ws (c : Char) (l : List Char) (h : isWsChar c = false) :
    skipWs (c :: l) = c :: l := by
  simp [skipWs, h]

theorem skipWs_spaces (n : Nat) (l : List Char) :
    skipWs (spacesChars n ++ l) = skipWs l := by
  induction n with
  | zero => rfl
  | succ n ih => simp [spacesChars, skipWs, isWsChar, ih]

theorem stripPre_self (pre rest : List Char) : stripPre pre (pre ++ rest) = some rest := by
  induction pre with
  | nil => rfl
  | cons c cs ih => simp [stripPre, ih]

theorem parseStrBody_escChars (s rest : List Char) :
    parseStrBody (escChars s ++ '"' :: rest) = some (s, rest) := by
  induction s with
  | nil =>
    rw [escChars, List.nil_append, parseStrBody.eq_def]
    simp
  | cons c cs ih =>
    rw [escChars, List.append_assoc]
    by_cases h1 : c = '"'
    · subst h1
      rw [show escChar '"' = ['\\', '"'] from by simp [escChar]]
      rw [parseStrBody.eq_def]
      simp [unescChar, ih]
    · by_cases h2 : c = '\\'
      · subst h2
        rw [show escChar '\\' = ['\\', '\\'] from by simp [escChar]]
        rw [parseStrBody.eq_def]
        simp [unescChar, ih]
      · by_cases h3 : c = '\n'
        · subst h3
          rw [show escChar '\n' = ['\\', 'n'] from by simp [escChar]]
          rw [parseStrBody.eq_def]
          simp [unescChar, ih]
        · by_cases h4 : c = '\t'
          · subst h4
            rw [show escChar '\t' = ['\\', 't'] from by simp [escChar]]
            rw [parseStrBody.eq_def]
            simp [unescChar, ih]
          · by_cases h5 : c = '\r'
            · subst h5
              rw [show escChar '\r' = ['\\', 'r'] from by simp [escChar]]
              rw [parseStrBody.eq_def]
              simp [unescChar, ih]
            · rw [show escChar c = [c] from by simp [escChar, h1, h2, h3, h4, h5]]
              rw [parseStrBody.eq_def]
              simp [h1, h2, ih]

mutual
/-- Fuel needed by `parseVal` to parse a rendered value. -/
def jsize : Json → Nat
  | .null => 1
  | .bool _ => 1
  | .num _ => 1
  | .str _ => 1
  | .arr xs => jsizeList xs + 2
  | .obj fs => jsizeFields fs + 2
termination_by j => sizeOf j
decreasing_by all_goals (simp_wf <;> omega)

/-- Fuel needed by `parseItems` to parse rendered array items. -/
def jsizeList : List Json → Nat
  | [] => 0
  | x :: xs => jsize x + jsizeList xs + 1
termination_by xs => sizeOf xs
decreasing_by all_goals (simp_wf <;> omega)

/-- Fuel needed by `parseFields` to parse rendered object fields. -/
def jsizeFields : List (String × Json) → Nat
  | [] => 0
  | (_, v) :: fs => jsize v + jsizeFields fs + 1
termination_by fs => sizeOf fs
decreasing_by all_goals (simp_wf <;> omega)
end

theorem jsize_pos (v : Json) : 1 ≤ jsize v := by
  cases v <;> simp [jsize]

/-- What follows the rendering of one array item: either the separator and
the remaining items, or the closing line of the array. -/
def itemsTail (ind ind0 : Nat) (xs : List Json) (rest : List Char) : List Char :=
  match xs with
  | [] => '\n' :: (spacesChars ind0 ++ ']' :: rest)
  | y :: ys => ',' :: '\n' :: (renderItems ind y ys ++ '\n' :: (spacesChars ind0 ++ ']' :: rest))

/-- What follows the rendering of one object field: either the separator
and the remaining fields, or the closing line of the object. -/
def fieldsTail (ind ind0 : Nat) (fs : List (String × Json)) (rest : List Char) : List Char :=
  match fs with
  | [] => '\n' :: (spacesChars ind0 ++ '\x7d' :: rest)
  | f :: fs2 => ',' :: '\n' :: (renderFields ind f fs2 ++ '\n' :: (spacesChars ind0 ++ '\x7d' :: rest))

theorem itemsSplit (ind ind0 : Nat) (x : Json) (xs : List Json) (rest : List Char) :
    renderItems ind x xs ++ '\n' :: (spacesChars ind0 ++ ']' :: rest) =
      spacesChars ind ++ (renderJson ind x ++ itemsTail ind ind0 xs rest) := by
  cases xs with
  | nil => simp [renderItems, itemsTail]
  | cons y ys => simp [renderItems, itemsTail]

theorem fieldsSplit (ind ind0 : Nat) (k : String) (v : Json)
    (fs : List (String × Json)) (rest : List Char) :
    renderFields ind (k, v) fs ++ '\n' :: (spacesChars ind0 ++ '\x7d' :: rest) =
      spacesChars ind ++ (quoteChars k.data ++ ':' :: ' ' ::
        (renderJson ind v ++ fieldsTail ind ind0 fs rest)) := by
  cases fs with
  | nil => simp [renderFields, fieldsTail]
  | cons f fs2 => simp [renderFields, fieldsTail]

theorem noDigHead_itemsTail (ind ind0 : Nat) (xs : List Json) (rest : List Char) :
    noDigHead (itemsTail ind ind0 xs rest) := by
  cases xs <;> simp [itemsTail, noDigHead] <;> decide

theorem noDigHead_fieldsTail (ind ind0 : Nat) (fs : List (String × Json)) (rest : List Char) :
    noDigHead (fieldsTail ind ind0 fs rest) := by
  cases fs <;> simp [fieldsTail, noDigHead] <;> decide

theorem natChars_head (n : Nat) :
    ∃ c cs, natChars n = c :: cs ∧ c.isDigit = true := by
  cases h : natChars n with
  | nil => exact absurd h (natChars_ne_nil n)
  | cons c cs =>
    refine ⟨c, cs, rfl, ?_⟩
    exact natChars_all_digits n c (by rw [h]; simp)

/-- The first rendered character of any value: never whitespace, never a
closing bracket. -/
theorem renderJson_head (ind : Nat) (v : Json) :
    ∃ c cs, renderJson ind v = c :: cs ∧ isWsChar c = false ∧ c ≠ ']' ∧ c ≠ '\x7d' := by
  cases v with
  | null =>
    simp only [renderJson]
    exact ⟨_, _, rfl, by decide, by decide, by decide⟩
  | bool b =>
    cases b with
    | true =>
      simp only [renderJson, Bool.cond_true]
      exact ⟨_, _, rfl, by decide, by decide, by decide⟩
    | false =>
      simp only [renderJson, Bool.cond_false]
      exact ⟨_, _, rfl, by decide, by decide, by decide⟩
  | num i =>
    by_cases h : i < 0
    · simp only [renderJson, intChars, if_pos h]
      exact ⟨_, _, rfl, by decide, by decide, by decide⟩
    · obtain ⟨c, cs, hcons, hdig⟩ := natChars_head i.natAbs
      simp only [renderJson, intChars, if_neg h, hcons]
      exact ⟨c, cs, rfl, isDigit_not_ws c hdig,
        isDigit_ne c ']' hdig (by decide), isDigit_ne c '\x7d' hdig (by decide)⟩
  | str s =>
    simp only [renderJson, quoteChars]
    exact ⟨_, _, rfl, by decide, by decide, by decide⟩
  | arr xs =>
    cases xs with
    | nil =>
      simp only [renderJson]
      exact ⟨_, _, rfl, by decide, by decide, by decide⟩
    | cons x xs =>
      simp only [renderJson]
      exact ⟨_, _, rfl, by decide, by decide, by decide⟩
  | obj fs =>
    cases fs with
    | nil =>
      simp only [renderJson]
      exact ⟨_, _, rfl, by decide, by decide, by decide⟩
    | cons f fs =>
      simp only [renderJson]
      exact ⟨_, _, rfl, by decide, by decide, by decide⟩

theorem skipWs_renderJson (ind : Nat) (v : Json) (rest : List Char) :
    skipWs (renderJson ind v ++ rest) = renderJson ind v ++ rest := by
  obtain ⟨c, cs, hcons, hws, _, _⟩ := renderJson_head ind v
  rw [hcons]
  exact skipWs_not_ws c (cs ++ rest) hws

theorem parseVal_congr (fuel : Nat) (l1 l2 : List Char) (h : skipWs l1 = skipWs l2) :
    parseVal fuel l1 = parseVal fuel l2 := by
  cases fuel with
  | zero => rfl
  | succ g =>
    rw [parseVal.eq_def]
    conv_rhs => rw [parseVal.eq_def]
    simp only [h]

theorem parseItems_congr (fuel : Nat) (l1 l2 : List Char) (h : skipWs l1 = skipWs l2) :
    parseItems fuel l1 = parseItems fuel l2 := by
  cases fuel with
  | zero => rfl
  | succ g =>
    rw [parseItems.eq_def]
    conv_rhs => rw [parseItems.eq_def]
    simp only [parseVal_congr g l1 l2 h]

theorem parseFields_congr (fuel : Nat) (l1 l2 : List Char) (h : skipWs l1 = skipWs l2) :
    parseFields fuel l1 = parseFields fuel l2 := by
  cases fuel with
  | zero => rfl
  | succ g =>
    rw [parseFields.eq_def]
    conv_rhs => rw [parseFields.eq_def]
    simp only [h]

theorem string_mk_data (s : String) : String.mk s.data = s := rfl

theorem parse_render (fuel : Nat) :
    (∀ (ind : Nat) (v : Json) (rest : List Char), jsize v ≤ fuel → noDigHead rest →
        parseVal fuel (renderJson ind v ++ rest) = some (v, rest)) ∧
    (∀ (ind ind0 : Nat) (x : Json) (xs : List Json) (rest : List Char),
        jsizeList (x :: xs) ≤ fuel →
        parseItems fuel (renderJson ind x ++ itemsTail ind ind0 xs rest) =
          some (x :: xs, rest)) ∧
    (∀ (ind ind0 : Nat) (k : String) (v : Json) (fs : List (String × Json))
        (rest : List Char), jsizeFields ((k, v) :: fs) ≤ fuel →
        parseFields fuel (quoteChars k.data ++ ':' :: ' ' ::
            (renderJson ind v ++ fieldsTail ind ind0 fs rest)) =
          some ((k, v) :: fs, rest)) := by
  induction fuel with
  | zero =>
    refine ⟨?_, ?_, ?_⟩
    · intro ind v rest hsz _
      exact absurd hsz (by have := jsize_pos v; omega)
    · intro ind ind0 x xs rest hsz
      simp only [jsizeList] at hsz
      exact absurd hsz (by omega)
    · intro ind ind0 k v fs rest hsz
      simp only [jsizeFields] at hsz
      exact absurd hsz (by omega)
  | succ fuel ih =>
    obtain ⟨ihV, ihI, ihF⟩ := ih
    refine ⟨?_, ?_, ?_⟩
    · -- parseVal on a rendered value
      intro ind v rest hsz hrest
      cases v with
      | null =>
        simp only [renderJson, List.cons_append, List.nil_append]
        rw [parseVal.eq_def]
        simp [skipWs, isWsChar, stripPre]
      | bool b =>
        cases b with
        | true =>
          simp only [renderJson, Bool.cond_true, List.cons_append, List.nil_append]
          rw [parseVal.eq_def]
          simp [skipWs, isWsChar, stripPre]
        | false =>
          simp only [renderJson, Bool.cond_false, List.cons_append, List.nil_append]
          rw [parseVal.eq_def]
          simp [skipWs, isWsChar, stripPre]
      | str s =>
        simp only [renderJson, quoteChars, List.cons_append, List.append_assoc,
          List.singleton_append]
        rw [parseVal.eq_def]
        simp [skipWs, isWsChar, parseStrBody_escChars, string_mk_data]
      | num i =>
        by_cases hneg : i < 0
        · simp only [renderJson, intChars, if_pos hneg, List.cons_append]
          rw [parseVal.eq_def]
          simp only [Nat.succ_eq_add_one]
          rw [skipWs_not_ws '-' _ (by decide)]
          simp only [show ¬('-' : Char) = 'n' from by decide,
            show ¬('-' : Char) = 't' from by decide,
            show ¬('-' : Char) = 'f' from by decide,
            show ¬('-' : Char) = '"' from by decide,
            show ¬('-' : Char) = '[' from by decide,
            show ¬('-' : Char) = '\x7b' from by decide, if_neg, if_pos,
            if_true, if_false, ite_false, ite_true]
          rw [parseNumAfter_natChars true i.natAbs rest hrest]
          have hv : -((i.natAbs : Nat) : Int) = i := by omega
          rw [hv]
          simp
        · obtain ⟨c, cs, hcons, hdig⟩ := natChars_head i.natAbs
          simp only [renderJson, intChars, if_neg hneg, hcons, List.cons_append]
          rw [parseVal.eq_def]
          simp only [Nat.succ_eq_add_one]
          rw [skipWs_not_ws c _ (isDigit_not_ws c hdig)]
          simp only [if_neg (isDigit_ne c 'n' hdig (by decide)),
            if_neg (isDigit_ne c 't' hdig (by decide)),
            if_neg (isDigit_ne c 'f' hdig (by decide)),
            if_neg (isDigit_ne c '"' hdig (by decide)),
            if_neg (isDigit_ne c '[' hdig (by decide)),
            if_neg (isDigit_ne c '\x7b' hdig (by decide)),
            if_neg (isDigit_ne c '-' hdig (by decide)),
            if_pos hdig]
          rw [show c :: (cs ++ rest) = (c :: cs) ++ rest from rfl, ← hcons]
          rw [parseNumAfter_natChars false i.natAbs rest hrest]
          have hv : ((i.natAbs : Nat) : Int) = i := by omega
          rw [hv]
          simp
      | arr xs =>
        cases xs with
        | nil =>
          simp only [renderJson, List.cons_append, List.nil_append]
          rw [parseVal.eq_def]
          simp [skipWs, isWsChar, headIs]
        | cons x xs =>
          simp only [jsize, jsizeList] at hsz
          simp only [renderJson, List.cons_append, List.append_assoc,
            List.singleton_append, List.nil_append]
          rw [parseVal.eq_def]
          simp only [Nat.succ_eq_add_one]
          rw [skipWs_not_ws '[' _ (by decide)]
          simp only [show ¬('[' : Char) = 'n' from by decide,
            show ¬('[' : Char) = 't' from by decide,
            show ¬('[' : Char) = 'f' from by decide,
            show ¬('[' : Char) = '"' from by decide, if_neg, if_pos,
            if_true, if_false, ite_false, ite_true]
          rw [itemsSplit (ind + 2) ind x xs rest]
          rw [skipWs_ws_cons '\n' _ (by decide), skipWs_spaces, skipWs_renderJson]
          obtain ⟨c, cs, hcons, _, hne, _⟩ := renderJson_head (ind + 2) x
          have hhead : headIs (renderJson (ind + 2) x ++ itemsTail (ind + 2) ind xs rest)
              ']' = false := by
            rw [hcons]
            simp only [List.cons_append, headIs]
            exact beq_eq_false_iff_ne.mpr hne
          rw [hhead]
          simp only [cond_false]
          rw [ihI (ind + 2) ind x xs rest (by simp only [jsizeList]; omega)]
      | obj fs =>
        cases fs with
        | nil =>
          simp only [renderJson, List.cons_append, List.nil_append]
          rw [parseVal.eq_def]
          simp [skipWs, isWsChar, headIs]
        | cons f fs =>
          obtain ⟨k, v⟩ := f
          simp only [jsize, jsizeFields] at hsz
          simp only [renderJson, List.cons_append, List.append_assoc,
            List.singleton_append, List.nil_append]
          rw [parseVal.eq_def]
          simp only [Nat.succ_eq_add_one]
          rw [skipWs_not_ws '\x7b' _ (by decide)]
          simp only [show ¬('\x7b' : Char) = 'n' from by decide,
            show ¬('\x7b' : Char) = 't' from by decide,
            show ¬('\x7b' : Char) = 'f' from by decide,
            show ¬('\x7b' : Char) = '"' from by decide,
            show ¬('\x7b' : Char) = '[' from by decide, if_neg, if_pos,
            if_true, if_false, ite_false, ite_true]
          rw [fieldsSplit (ind + 2) ind k v fs rest]
          rw [skipWs_ws_cons '\n' _ (by decide), skipWs_spaces]
          rw [show quoteChars k.data ++ ':' :: ' ' ::
              (renderJson (ind + 2) v ++ fieldsTail (ind + 2) ind fs rest) =
            '"' :: ((escChars k.data ++ ['"']) ++ (':' :: ' ' ::
              (renderJson (ind + 2) v ++ fieldsTail (ind + 2) ind fs rest)))
            from by simp [quoteChars]]
          rw [skipWs_not_ws '"' _ (by decide)]
          rw [show headIs ('"' :: ((escChars k.data ++ ['"']) ++ (':' :: ' ' ::
              (renderJson (ind + 2) v ++ fieldsTail (ind + 2) ind fs rest)))) '\x7d' = false
            from rfl]
          simp only [cond_false]
          rw [show '"' :: ((escChars k.data ++ ['"']) ++ (':' :: ' ' ::
              (renderJson (ind + 2) v ++ fieldsTail (ind + 2) ind fs rest))) =
            quoteChars k.data ++ ':' :: ' ' ::
              (renderJson (ind + 2) v ++ fieldsTail (ind + 2) ind fs rest)
            from by simp [quoteChars]]
          rw [ihF (ind + 2) ind k v fs rest (by simp only [jsizeFields]; omega)]
    · -- parseItems on rendered items
      intro ind ind0 x xs rest hsz
      simp only [jsizeList] at hsz
      rw [parseItems.eq_def]
      simp only [Nat.succ_eq_add_one]
      rw [ihV ind x (itemsTail ind ind0 xs rest)
        (by have := jsize_pos x; omega) (noDigHead_itemsTail ind ind0 xs rest)]
      cases xs with
      | nil =>
        simp only [itemsTail]
        rw [skipWs_ws_cons '\n' _ (by decide), skipWs_spaces,
          skipWs_not_ws ']' _ (by decide)]
        simp [headIs]
      | cons y ys =>
        simp only [itemsTail]
        rw [skipWs_not_ws ',' _ (by decide)]
        simp only [headIs, List.tail_cons]
        rw [show (',' == ',') = true from rfl]
        simp only [cond_true]
        have hcongr : parseItems fuel ('\n' :: (renderItems ind y ys ++ '\n' ::
            (spacesChars ind0 ++ ']' :: rest))) =
            parseItems fuel (renderJson ind y ++ itemsTail ind ind0 ys rest) := by
          apply parseItems_congr
          rw [skipWs_ws_cons '\n' _ (by decide)]
          rw [itemsSplit ind ind0 y ys rest]
          rw [skipWs_spaces, skipWs_renderJson]
        rw [hcongr]
        rw [ihI ind ind0 y ys rest
          (by simp only [jsizeList] at hsz ⊢; have := jsize_pos x; omega)]
    · -- parseFields on rendered fields
      intro ind ind0 k v fs rest hsz
      simp only [jsizeFields] at hsz
      rw [parseFields.eq_def]
      simp only [Nat.succ_eq_add_one]
      rw [show quoteChars k.data ++ ':' :: ' ' ::
          (renderJson ind v ++ fieldsTail ind ind0 fs rest) =
        '"' :: ((escChars k.data ++ ['"']) ++ (':' :: ' ' ::
          (renderJson ind v ++ fieldsTail ind ind0 fs rest)))
        from by simp [quoteChars]]
      rw [skipWs_not_ws '"' _ (by decide)]
      simp only [eq_self_iff_true, if_true, ite_true]
      rw [show (escChars k.data ++ ['"']) ++ (':' :: ' ' ::
          (renderJson ind v ++ fieldsTail ind ind0 fs rest)) =
        escChars k.data ++ '"' :: (':' :: ' ' ::
          (renderJson ind v ++ fieldsTail ind ind0 fs rest))
        from by simp]
      rw [parseStrBody_escChars k.data (':' :: ' ' ::
        (renderJson ind v ++ fieldsTail ind ind0 fs rest))]
      simp [skipWs, isWsChar]
      have hval : parseVal fuel (' ' :: (renderJson ind v ++ fieldsTail ind ind0 fs rest)) =
          some (v, fieldsTail ind ind0 fs rest) := by
        rw [parseVal_congr fuel _ (renderJson ind v ++ fieldsTail ind ind0 fs rest)
          (by rw [skipWs_ws_cons ' ' _ (by decide)])]
        exact ihV ind v (fieldsTail ind ind0 fs rest) (by omega)
          (noDigHead_fieldsTail ind ind0 fs rest)
      rw [hval]
      cases fs with
      | nil =>
        simp only [fieldsTail]
        rw [skipWs_ws_cons '\n' _ (by decide), skipWs_spaces,
          skipWs_not_ws '\x7d' _ (by decide)]
        simp [headIs, string_mk_data]
      | cons f fs2 =>
        obtain ⟨k2, v2⟩ := f
        simp only [fieldsTail]
        rw [skipWs_not_ws ',' _ (by decide)]
        simp only [headIs, List.tail_cons]
        rw [show (',' == ',') = true from rfl]
        simp only [cond_true]
        have hcongr : parseFields fuel ('\n' :: (renderFields ind (k2, v2) fs2 ++ '\n' ::
            (spacesChars ind0 ++ '\x7d' :: rest))) =
            parseFields fuel (quoteChars k2.data ++ ':' :: ' ' ::
              (renderJson ind v2 ++ fieldsTail ind ind0 fs2 rest)) := by
          apply parseFields_congr
          rw [skipWs_ws_cons '\n' _ (by decide)]
          rw [fieldsSplit ind ind0 k2 v2 fs2 rest]
          rw [skipWs_spaces]
        rw [hcongr]
        rw [ihF ind ind0 k2 v2 fs2 rest (by have := jsize_pos v; omega)]

mutual
/-- The fuel a rendered value needs is covered by its rendered length. -/
theorem jsize_le_render (ind : Nat) (v : Json) : jsize v ≤ (renderJson ind v).length := by
  cases v with
  | null => simp [jsize, renderJson]
  | bool b => cases b <;> simp [jsize, renderJson]
  | num i =>
    have h1 : 1 ≤ (natChars i.natAbs).length :=
      List.length_pos.mpr (natChars_ne_nil i.natAbs)
    by_cases h : i < 0 <;> simp [jsize, renderJson, intChars, h] <;> omega
  | str s => simp [jsize, renderJson, quoteChars]
  | arr xs =>
    cases xs with
    | nil => simp [jsize, jsizeList, renderJson]
    | cons x xs =>
      have h := jsizeList_le_items (ind + 2) x xs
      simp only [jsize, renderJson, List.length_cons, List.length_append,
        List.length_singleton] at h ⊢
      omega
  | obj fs =>
    cases fs with
    | nil => simp [jsize, jsizeFields, renderJson]
    | cons f fs =>
      have h := jsizeFields_le_flds (ind + 2) f fs
      simp only [jsize, renderJson, List.length_cons, List.length_append,
        List.length_singleton] at h ⊢
      omega
termination_by sizeOf v
decreasing_by all_goals (simp_wf <;> omega)

/-- The fuel rendered array items need is covered by their rendered length. -/
theorem jsizeList_le_items (ind : Nat) (x : Json) (xs : List Json) :
    jsizeList (x :: xs) ≤ (renderItems ind x xs).length + 1 := by
  cases xs with
  | nil =>
    have h := jsize_le_render ind x
    simp only [jsizeList, renderItems, List.length_append]
    omega
  | cons y ys =>
    have h1 := jsize_le_render ind x
    have h2 := jsizeList_le_items ind y ys
    simp only [jsizeList, renderItems, List.length_append, List.length_cons] at h2 ⊢
    omega
termination_by 1 + sizeOf x + sizeOf xs
decreasing_by all_goals (simp_wf <;> omega)

/-- The fuel rendered object fields need is covered by their rendered length. -/
theorem jsizeFields_le_flds (ind : Nat) (f : String × Json) (fs : List (String × Json)) :
    jsizeFields (f :: fs) ≤ (renderFields ind f fs).length + 1 := by
  obtain ⟨k, v⟩ := f
  cases fs with
  | nil =>
    have h := jsize_le_render ind v
    simp only [jsizeFields, renderFields, List.length_append, List.length_cons]
    omega
  | cons f2 fs2 =>
    have h1 := jsize_le_render ind v
    have h2 := jsizeFields_le_flds ind f2 fs2
    simp only [jsizeFields, renderFields, List.length_append, List.length_cons] at h2 ⊢
    omega
termination_by 1 + sizeOf f + sizeOf fs
decreasing_by all_goals (simp_wf <;> omega)
end

/-- The JSON round trip: re-parsing the canonical pretty-printed
serialization of a value recovers the value itself. -/
theorem jsonParse_jsonStringify (v : Json) : jsonParse (jsonStringify v) = .ok v := by
  unfold jsonParse jsonStringify
  have hdata : (String.mk (renderJson 0 v)).data = renderJson 0 v := rfl
  rw [hdata]
  have hfuel : jsize v ≤ (renderJson 0 v).length + 1 := by
    have := jsize_le_render 0 v
    omega
  have hmain := (parse_render ((renderJson 0 v).length + 1)).1 0 v [] hfuel (by trivial)
  rw [List.append_nil] at hmain
  rw [hmain]
  simp [skipWs]

/-! ## Claim theorems -/

/-- C1 (amended): for every completed `check-status` exchange the handler
returns a success result whose `isAvailable` is `response.ok`, which is
true iff the status is in the range 200 to 299 inclusive — not 200 to 399
as claimed: the source reports `isAvailable = response.ok` and the fetch
standard's `ok` range stops at 299, so a 3xx response yields
`isAvailable = false`. -/
theorem checkStatus_isAvailable_iff_2xx (a : CheckStatusArgs) (r : HttpResponse) :
    handleCheckStatus a (fun _ _ => .ok r) =
      .ok { status := r.status, statusText := r.statusText, headers := r.headers,
            url := r.url, isAvailable := respOk r } ∧
    (respOk r = true ↔ 200 ≤ r.status ∧ r.status ≤ 299) := by
  refine ⟨rfl, ?_⟩
  simp [respOk]

/-- C1 counterexample: a 302 exchange, whose status lies in the claimed
range 200 to 399, yields `isAvailable = false`, refuting the claim that
`isAvailable = true` iff the status is in 200 to 399. -/
theorem checkStatus_302_not_available :
    handleCheckStatus { url := "http://a.example/", timeout := none }
      (fun _ _ => .ok
        { status := 302, statusText := "Found", headers := [],
          url := "http://a.example/", body := "" }) =
      .ok
        { status := 302, statusText := "Found", headers := [],
          url := "http://a.example/", isAvailable := false } ∧
    200 ≤ 302 ∧ 302 ≤ 399 := by
  exact ⟨rfl, by omega, by omega⟩

/-- C4 (amended): a truthy timeout `t` is installed as both the headers
timeout and the body timeout of the `fetch-url` and
`extract-html-fragment` exchanges, but `check-status` installs it only as
the headers timeout — its body timeout is left unset, contrary to the
claim that `t` bounds both phases on every tool.  A transport-level
failure of the exchange (which is how an expired undici timeout
surfaces) is wrapped into the error envelope behind the operation tag,
never into the HTTP-status error of `extract-html-fragment`. -/
theorem timeout_configuration (afu : FetchUrlArgs) (ax : ExtractArgs)
    (ac : CheckStatusArgs) (t : Nat) (pf : String → DomDocument) (m : String)
    (ht : 0 < t) (hfu : afu.timeout = some t) (hx : ax.timeout = some t)
    (hc : ac.timeout = some t) :
    (mkFetchUrlOptions afu).headersTimeout = some t ∧
    (mkFetchUrlOptions afu).bodyTimeout = some t ∧
    (mkExtractOptions ax).headersTimeout = some t ∧
    (mkExtractOptions ax).bodyTimeout = some t ∧
    (mkCheckStatusOptions ac).headersTimeout = some t ∧
    (mkCheckStatusOptions ac).bodyTimeout = none ∧
    fetchUrlTool pf afu (fun _ _ => .error m) =
      { isError := true, text := "Error fetching URL: " ++ m } ∧
    extractHtmlFragmentTool pf ax (fun _ _ => .error m) =
      { isError := true, text := "Error extracting HTML fragment: " ++ m } ∧
    checkStatusTool ac (fun _ _ => .error m) =
      { isError := true, text := "Error checking URL status: " ++ m } := by
  have hnum : ∀ o, o = some t → numTruthy o = some t := by
    intro o ho
    subst ho
    simp [numTruthy]
    omega
  refine ⟨?_, ?_, ?_, ?_, ?_, rfl, rfl, rfl, rfl⟩ <;>
    simp [mkFetchUrlOptions, mkExtractOptions, mkCheckStatusOptions, hnum _ hfu,
      hnum _ hx, hnum _ hc]

/-- C4 witness: the configuration at a concrete timeout of 5000ms. -/
theorem timeout_configuration_witness :
    (0 < 5000 ∧
      (mkFetchUrlOptions
        { url := "http://a.example/", method := "GET", headers := none,
          body := none, timeout := some 5000, responseType := .text,
          followRedirects := true, fragmentSelector := none }).bodyTimeout = some 5000) ∧
    (mkCheckStatusOptions
      { url := "http://a.example/", timeout := some 5000 }).bodyTimeout = none := by
  refine ⟨⟨by omega, ?_⟩, ?_⟩
  · exact (timeout_configuration
      { url := "http://a.example/", method := "GET", headers := none, body := none,
        timeout := some 5000, responseType := .text, followRedirects := true,
        fragmentSelector := none }
      { url := "http://a.example/", selector := "p", anchorId := none, method := "GET",
        headers := none, body := none, timeout := some 5000, followRedirects := true }
      { url := "http://a.example/", timeout := some 5000 }
      5000 (fun _ => { elements := [] }) "boom" (by omega) rfl rfl rfl).2.1
  · rfl

/-- C4 counterexample: with `timeout = 5000` the `check-status` exchange
is configured with no body timeout at all, refuting the claim that the
timeout bounds the body phase for every tool. -/
theorem checkStatus_timeout_not_on_body :
    (mkCheckStatusOptions
      { url := "http://a.example/", timeout := some 5000 }).bodyTimeout = none ∧
    (mkCheckStatusOptions
      { url := "http://a.example/", timeout := some 5000 }).headersTimeout =
        some 5000 := ⟨rfl, rfl⟩

/-- C9: an empty-string request body is coerced to an absent body before
the exchange (`body: body || undefined` — the empty string is falsy), so
the whole call behaves identically to one with the body omitted, for both
`fetch-url` and `extract-html-fragment`. -/
theorem empty_body_behaves_as_absent (pf : String → DomDocument) (a : FetchUrlArgs)
    (b : ExtractArgs) (f : FetchFn) :
    mkFetchUrlOptions { a with body := some "" } =
      mkFetchUrlOptions { a with body := none } ∧
    mkExtractOptions { b with body := some "" } =
      mkExtractOptions { b with body := none } ∧
    (mkFetchUrlOptions { a with body := some "" }).body = none ∧
    (mkExtractOptions { b with body := some "" }).body = none ∧
    handleFetchUrl pf { a with body := some "" } f =
      handleFetchUrl pf { a with body := none } f ∧
    handleExtractHtmlFragment pf { b with body := some "" } f =
      handleExtractHtmlFragment pf { b with body := none } f := by
  exact ⟨rfl, rfl, rfl, rfl, rfl, rfl⟩

/-! ### Branch equations for the handlers -/

theorem handleFetchUrl_text (pf : String → DomDocument) (a : FetchUrlArgs)
    (r : HttpResponse) (hty : a.responseType = .text) :
    handleFetchUrl pf a (fun _ _ => .ok r) =
      .ok { status := r.status, statusText := r.statusText, headers := r.headers,
            url := r.url, content := r.body, encoding := none, matchCount := none,
            contentType := none } := by
  simp [handleFetchUrl, hty]

theorem handleFetchUrl_json (pf : String → DomDocument) (a : FetchUrlArgs)
    (r : HttpResponse) (hty : a.responseType = .json) :
    handleFetchUrl pf a (fun _ _ => .ok r) =
      match jsonParse r.body with
      | .error m => .error ("Failed to parse response as JSON: " ++ m)
      | .ok v =>
        .ok { status := r.status, statusText := r.statusText, headers := r.headers,
              url := r.url, content := jsonStringify v, encoding := none,
              matchCount := none, contentType := none } := by
  simp only [handleFetchUrl, hty]

theorem handleFetchUrl_binary (pf : String → DomDocument) (a : FetchUrlArgs)
    (r : HttpResponse) (hty : a.responseType = .binary) :
    handleFetchUrl pf a (fun _ _ => .ok r) =
      .ok { status := r.status, statusText := r.statusText, headers := r.headers,
            url := r.url, content := base64Encode r.body, encoding := some "base64",
            matchCount := none, contentType := none } := by
  simp [handleFetchUrl, hty]

theorem handleFetchUrl_html_nosel (pf : String → DomDocument) (a : FetchUrlArgs)
    (r : HttpResponse) (hty : a.responseType = .htmlFragment)
    (hsel : strTruthy a.fragmentSelector = none) :
    handleFetchUrl pf a (fun _ _ => .ok r) =
      .ok { status := r.status, statusText := r.statusText, headers := r.headers,
            url := r.url, content := r.body, encoding := none, matchCount := none,
            contentType := some "text/html" } := by
  simp [handleFetchUrl, hty, hsel]

theorem handleFetchUrl_html_sel (pf : String → DomDocument) (a : FetchUrlArgs)
    (r : HttpResponse) (sel : String) (hty : a.responseType = .htmlFragment)
    (hsel : strTruthy a.fragmentSelector = some sel) :
    handleFetchUrl pf a (fun _ _ => .ok r) =
      (if (querySelectorAll (pf r.body) sel).length = 0 then
        .error ("Failed to parse or extract HTML fragment: " ++
          "No elements found matching selector \"" ++ sel ++ "\"")
      else
        .ok { status := r.status, statusText := r.statusText, headers := r.headers,
              url := r.url,
              content :=
                if (querySelectorAll (pf r.body) sel).length = 1 then
                  ((querySelectorAll (pf r.body) sel).headD default).outerHTML
                else
                  String.intercalate "\n"
                    ((querySelectorAll (pf r.body) sel).map (fun e => e.outerHTML)),
              encoding := none, matchCount := some (querySelectorAll (pf r.body) sel).length,
              contentType := some "text/html" }) := by
  simp only [handleFetchUrl, hty, hsel]

theorem handleExtract_not_ok (pf : String → DomDocument) (a : ExtractArgs)
    (r : HttpResponse) (hnok : respOk r = false) :
    handleExtractHtmlFragment pf a (fun _ _ => .ok r) =
      .error ("Failed to fetch URL: HTTP " ++ toString r.status ++ " " ++
        r.statusText) := by
  simp [handleExtractHtmlFragment, hnok]

theorem handleExtract_no_anchor (pf : String → DomDocument) (a : ExtractArgs)
    (r : HttpResponse) (hok : respOk r = true)
    (hanchor : strTruthy a.anchorId = none) :
    handleExtractHtmlFragment pf a (fun _ _ => .ok r) =
      (if (querySelectorAll (pf r.body) a.selector).length = 0 then
        .error ("No elements found matching selector \"" ++ a.selector ++ "\"")
      else
        .ok { status := r.status, statusText := r.statusText, url := r.url,
              selector := a.selector,
              matchCount := (querySelectorAll (pf r.body) a.selector).length,
              html :=
                if (querySelectorAll (pf r.body) a.selector).length = 1 then
                  .single ((querySelectorAll (pf r.body) a.selector).headD default).outerHTML
                else
                  .multiple ((querySelectorAll (pf r.body) a.selector).map
                    (fun e => e.outerHTML)) }) := by
  simp only [handleExtractHtmlFragment, hok, hanchor, Bool.true_eq_false, if_false,
    ite_false]

/-- C10: every successful `fetch-url` result with
`responseType = html-fragment` carries `contentType = "text/html"`
(selector or not); no other response type sets that field; and without a
`fragmentSelector` the result has no `matchCount` and its content is the
raw body text, not a re-serialization of the parsed document. -/
theorem html_fragment_contentType (pf : String → DomDocument) (a : FetchUrlArgs)
    (r : HttpResponse) (res : FetchResult) :
    (a.responseType = .htmlFragment → handleFetchUrl pf a (fun _ _ => .ok r) = .ok res →
      res.contentType = some "text/html") ∧
    (a.responseType ≠ .htmlFragment → handleFetchUrl pf a (fun _ _ => .ok r) = .ok res →
      res.contentType = none) ∧
    (a.responseType = .htmlFragment → a.fragmentSelector = none →
      handleFetchUrl pf a (fun _ _ => .ok r) =
        .ok { status := r.status, statusText := r.statusText, headers := r.headers,
              url := r.url, content := r.body, encoding := none, matchCount := none,
              contentType := some "text/html" }) := by
  refine ⟨?_, ?_, ?_⟩
  · intro hty h
    cases hsel : strTruthy a.fragmentSelector with
    | none =>
      rw [handleFetchUrl_html_nosel pf a r hty hsel] at h
      cases h
      rfl
    | some sel =>
      rw [handleFetchUrl_html_sel pf a r sel hty hsel] at h
      by_cases hz : (querySelectorAll (pf r.body) sel).length = 0
      · rw [if_pos hz] at h
        cases h
      · rw [if_neg hz] at h
        cases h
        rfl
  · intro hty h
    cases hrt : a.responseType with
    | htmlFragment => exact absurd hrt hty
    | text =>
      rw [handleFetchUrl_text pf a r hrt] at h
      cases h
      rfl
    | binary =>
      rw [handleFetchUrl_binary pf a r hrt] at h
      cases h
      rfl
    | json =>
      rw [handleFetchUrl_json pf a r hrt] at h
      cases hp : jsonParse r.body with
      | error m => rw [hp] at h; cases h
      | ok v => rw [hp] at h; cases h; rfl
  · intro hty hsel
    exact handleFetchUrl_html_nosel pf a r hty (by rw [hsel]; rfl)

/-- C10 witness: a concrete html-fragment fetch without a selector. -/
theorem html_fragment_contentType_witness :
    handleFetchUrl (fun _ => { elements := [] })
      { url := "http://a.example/", method := "GET", headers := none, body := none,
        timeout := none, responseType := .htmlFragment, followRedirects := true,
        fragmentSelector := none }
      (fun _ _ =>  .ok
        { status := 200, statusText := "OK", headers := [],
          url := "http://a.example/", body := "<p>x</p>" }) =
      .ok { status := 200, statusText := "OK", headers := [],
            url := "http://a.example/", content := "<p>x</p>", encoding := none,
            matchCount := none, contentType := some "text/html" } := by
  exact (html_fragment_contentType (fun _ => { elements := [] }) _ _
    { status := 200, statusText := "OK", headers := [], url := "http://a.example/",
      content := "<p>x</p>", encoding := none, matchCount := none,
      contentType := some "text/html" }).2.2 rfl rfl

/-- C5 (amended): for a non-empty `anchorId`, absence of an element with
that id fails the call with an anchor-not-found error whose message
contains the id, and presence leaves the result exactly what the same
call without `anchorId` produces — the gate alters nothing else.  The
amendment: an *empty* `anchorId` is falsy in JavaScript, so the gate is
skipped entirely and the call behaves as if no anchor were supplied,
even though the document contains no element whose id equals it. -/
theorem anchor_precondition_gate (pf : String → DomDocument) (a : ExtractArgs)
    (r : HttpResponse) (aid : String) (hok : respOk r = true)
    (haid : strTruthy a.anchorId = some aid) :
    (getElementById (pf r.body) aid = none →
      handleExtractHtmlFragment pf a (fun _ _ => .ok r) =
        .error ("Anchor element with ID \"" ++ aid ++ "\" not found") ∧
      ∃ p q, ("Anchor element with ID \"" ++ aid ++ "\" not found" : String) =
        p ++ aid ++ q) ∧
    ((getElementById (pf r.body) aid).isSome = true →
      handleExtractHtmlFragment pf a (fun _ _ => .ok r) =
        handleExtractHtmlFragment pf { a with anchorId := none } (fun _ _ => .ok r)) ∧
    (∀ (b : ExtractArgs) (f : FetchFn),
      handleExtractHtmlFragment pf { b with anchorId := some "" } f =
        handleExtractHtmlFragment pf { b with anchorId := none } f) := by
  refine ⟨?_, ?_, ?_⟩
  · intro hgid
    refine ⟨?_, "Anchor element with ID \"", "\" not found", rfl⟩
    simp [handleExtractHtmlFragment, hok, haid, hgid]
  · intro hsome
    cases hgid : getElementById (pf r.body) aid with
    | none => rw [hgid] at hsome; cases hsome
    | some e =>
      simp only [handleExtractHtmlFragment, haid, hgid, hok]
      simp [strTruthy]
  · intro b f
    rfl

/-- C5 witness: a present anchor id leaves the extraction result
untouched, at a concrete document. -/
theorem anchor_precondition_gate_witness :
    respOk
      { status := 200, statusText := "OK", headers := [],
        url := "http://a.example/", body := "<p id=s>x</p>" } = true ∧
    (handleExtractHtmlFragment
      (fun _ =>
        { elements :=
            [{ outerHTML := "<p id=s>x</p>", idAttr := some "s", matchedBy := ["p"] }] })
      { url := "http://a.example/", selector := "p", anchorId := some "s",
        method := "GET", headers := none, body := none, timeout := none,
        followRedirects := true }
      (fun _ _ => .ok
        { status := 200, statusText := "OK", headers := [],
          url := "http://a.example/", body := "<p id=s>x</p>" }) =
      handleExtractHtmlFragment
        (fun _ =>
          { elements :=
              [{ outerHTML := "<p id=s>x</p>", idAttr := some "s", matchedBy := ["p"] }] })
        { url := "http://a.example/", selector := "p", anchorId := none,
          method := "GET", headers := none, body := none, timeout := none,
          followRedirects := true }
        (fun _ _ => .ok
          { status := 200, statusText := "OK", headers := [],
            url := "http://a.example/", body := "<p id=s>x</p>" })) := by
  refine ⟨rfl, ?_⟩
  exact (anchor_precondition_gate
    (fun _ =>
      { elements :=
          [{ outerHTML := "<p id=s>x</p>", idAttr := some "s", matchedBy := ["p"] }] })
    { url := "http://a.example/", selector := "p", anchorId := some "s",
      method := "GET", headers := none, body := none, timeout := none,
      followRedirects := true }
    { status := 200, statusText := "OK", headers := [], url := "http://a.example/",
      body := "<p id=s>x</p>" }
    "s" rfl rfl).2.1 rfl

/-- C5 counterexample: with `anchorId = ""` the document contains no
element whose id equals the anchor id, yet the call succeeds instead of
failing with an anchor-not-found error — the falsy empty string skips
the gate. -/
theorem anchor_empty_string_skips_gate :
    getElementById
      { elements := [{ outerHTML := "<p>x</p>", idAttr := none, matchedBy := ["p"] }] }
      "" = none ∧
    handleExtractHtmlFragment
      (fun _ =>
        { elements := [{ outerHTML := "<p>x</p>", idAttr := none, matchedBy := ["p"] }] })
      { url := "http://a.example/", selector := "p", anchorId := some "",
        method := "GET", headers := none, body := none, timeout := none,
        followRedirects := true }
      (fun _ _ => .ok
        { status := 200, statusText := "OK", headers := [],
          url := "http://a.example/", body := "<p>x</p>" }) =
      .ok { status := 200, statusText := "OK", url := "http://a.example/",
            selector := "p", matchCount := 1, html := .single "<p>x</p>" } := by
  exact ⟨rfl, rfl⟩

/-- Whether a handler outcome is a success. -/
def exceptIsOk {α : Type} : Except String α → Bool
  | .ok _ => true
  | .error _ => false

theorem handleExtract_anchor_found (pf : String → DomDocument) (a : ExtractArgs)
    (r : HttpResponse) (aid : String) (e : DomElement) (hok : respOk r = true)
    (haid : strTruthy a.anchorId = some aid)
    (hgid : getElementById (pf r.body) aid = some e) :
    handleExtractHtmlFragment pf a (fun _ _ => .ok r) =
      (if (querySelectorAll (pf r.body) a.selector).length = 0 then
        .error ("No elements found matching selector \"" ++ a.selector ++ "\"")
      else
        .ok { status := r.status, statusText := r.statusText, url := r.url,
              selector := a.selector,
              matchCount := (querySelectorAll (pf r.body) a.selector).length,
              html :=
                if (querySelectorAll (pf r.body) a.selector).length = 1 then
                  .single ((querySelectorAll (pf r.body) a.selector).headD default).outerHTML
                else
                  .multiple ((querySelectorAll (pf r.body) a.selector).map
                    (fun e => e.outerHTML)) }) := by
  simp only [handleExtractHtmlFragment, haid, hgid, hok, Bool.true_eq_false, if_false,
    ite_false]

/-- A handler consults the HTTP capability exactly once, so it cannot
distinguish the capability from the constant function returning the same
completed response. -/
theorem handleFetchUrl_fix_response (pf : String → DomDocument) (a : FetchUrlArgs)
    (f : FetchFn) (rr : HttpResponse) (hf : f a.url (mkFetchUrlOptions a) = .ok rr) :
    handleFetchUrl pf a f = handleFetchUrl pf a (fun _ _ => .ok rr) := by
  simp only [handleFetchUrl, hf]

theorem handleExtract_fix_response (pf : String → DomDocument) (a : ExtractArgs)
    (f : FetchFn) (rr : HttpResponse) (hf : f a.url (mkExtractOptions a) = .ok rr) :
    handleExtractHtmlFragment pf a f = handleExtractHtmlFragment pf a (fun _ _ => .ok rr) := by
  simp only [handleExtractHtmlFragment, hf]

/-- C2 (amended): a non-2xx status is never by itself an error.
`check-status` returns a success result describing the status of every
completed exchange; `fetch-url` with the default `text` representation
returns a success result describing the status, and in general whether
`fetch-url` succeeds or fails never depends on the status (only the body
transformation can fail — e.g. a JSON parse failure, which is what the
counterexample exhibits against the claim's blanket "return a success
result").  `extract-html-fragment` instead fails on every non-2xx status
with an HTTP error whose message contains the status code; the equation
holds for every parser and every body, so the failure is decided before
the body is read or parsed. -/
theorem non2xx_status_tolerance (pf : String → DomDocument) (afu : FetchUrlArgs)
    (ax : ExtractArgs) (ac : CheckStatusArgs) (r : HttpResponse) (s : Nat) :
    handleCheckStatus ac (fun _ _ => .ok r) =
      .ok { status := r.status, statusText := r.statusText, headers := r.headers,
            url := r.url, isAvailable := respOk r } ∧
    (afu.responseType = .text →
      handleFetchUrl pf afu (fun _ _ => .ok r) =
        .ok { status := r.status, statusText := r.statusText, headers := r.headers,
              url := r.url, content := r.body, encoding := none, matchCount := none,
              contentType := none }) ∧
    exceptIsOk (handleFetchUrl pf afu (fun _ _ => .ok { r with status := s })) =
      exceptIsOk (handleFetchUrl pf afu (fun _ _ => .ok r)) ∧
    (respOk r = false →
      handleExtractHtmlFragment pf ax (fun _ _ => .ok r) =
        .error ("Failed to fetch URL: HTTP " ++ toString r.status ++ " " ++
          r.statusText) ∧
      ∃ p q, ("Failed to fetch URL: HTTP " ++ toString r.status ++ " " ++
        r.statusText : String) = p ++ toString r.status ++ q) := by
  refine ⟨rfl, ?_, ?_, ?_⟩
  · intro hty
    exact handleFetchUrl_text pf afu r hty
  · cases hty : afu.responseType with
    | text =>
      rw [handleFetchUrl_text pf afu _ hty, handleFetchUrl_text pf afu r hty]
      rfl
    | binary =>
      rw [handleFetchUrl_binary pf afu _ hty, handleFetchUrl_binary pf afu r hty]
      rfl
    | json =>
      rw [handleFetchUrl_json pf afu _ hty, handleFetchUrl_json pf afu r hty]
      cases hp : jsonParse r.body <;> simp only [hp] <;> rfl
    | htmlFragment =>
      cases hsel : strTruthy afu.fragmentSelector with
      | none =>
        rw [handleFetchUrl_html_nosel pf afu _ hty hsel,
          handleFetchUrl_html_nosel pf afu r hty hsel]
        rfl
      | some sel =>
        rw [handleFetchUrl_html_sel pf afu _ sel hty hsel,
          handleFetchUrl_html_sel pf afu r sel hty hsel]
        by_cases hz : (querySelectorAll (pf r.body) sel).length = 0
        · rw [if_pos hz, if_pos hz]
        · rw [if_neg hz, if_neg hz]
          rfl
  · intro hnok
    refine ⟨handleExtract_not_ok pf ax r hnok,
      "Failed to fetch URL: HTTP ", " " ++ r.statusText, by rw [String.append_assoc]⟩

/-- C2 witness: at a 404 text exchange, `fetch-url` and `check-status`
succeed and `extract-html-fragment` fails with the status in its
message. -/
theorem non2xx_status_tolerance_witness :
    respOk
      { status := 404, statusText := "Not Found", headers := [],
        url := "http://a.example/", body := "gone" } = false ∧
    handleCheckStatus { url := "http://a.example/", timeout := none }
      (fun _ _ => .ok
        { status := 404, statusText := "Not Found", headers := [],
          url := "http://a.example/", body := "gone" }) =
      .ok { status := 404, statusText := "Not Found", headers := [],
            url := "http://a.example/", isAvailable := false } ∧
    handleExtractHtmlFragment (fun _ => { elements := [] })
      { url := "http://a.example/", selector := "p", anchorId := none,
        method := "GET", headers := none, body := none, timeout := none,
        followRedirects := true }
      (fun _ _ => .ok
        { status := 404, statusText := "Not Found", headers := [],
          url := "http://a.example/", body := "gone" }) =
      .error "Failed to fetch URL: HTTP 404 Not Found" := by
  refine ⟨rfl, ?_, ?_⟩
  · exact (non2xx_status_tolerance (fun _ => { elements := [] })
      { url := "http://a.example/", method := "GET", headers := none, body := none,
        timeout := none, responseType := .text, followRedirects := true,
        fragmentSelector := none }
      { url := "http://a.example/", selector := "p", anchorId := none,
        method := "GET", headers := none, body := none, timeout := none,
        followRedirects := true }
      { url := "http://a.example/", timeout := none }
      { status := 404, statusText := "Not Found", headers := [],
        url := "http://a.example/", body := "gone" } 404).1
  · exact ((non2xx_status_tolerance (fun _ => { elements := [] })
      { url := "http://a.example/", method := "GET", headers := none, body := none,
        timeout := none, responseType := .text, followRedirects := true,
        fragmentSelector := none }
      { url := "http://a.example/", selector := "p", anchorId := none,
        method := "GET", headers := none, body := none, timeout := none,
        followRedirects := true }
      { url := "http://a.example/", timeout := none }
      { status := 404, statusText := "Not Found", headers := [],
        url := "http://a.example/", body := "gone" } 404).2.2.2 rfl).1

/-- C2 counterexample: a non-2xx exchange on which `fetch-url` does not
return a success result — with `responseType = json` and a non-JSON body
the 404 call fails with a parse error, refuting the claim's universal
"fetch-url and check-status return a success result describing that
status". -/
theorem fetchUrl_json_404_not_success :
    handleFetchUrl (fun _ => { elements := [] })
      { url := "http://a.example/", method := "GET", headers := none, body := none,
        timeout := none, responseType := .json, followRedirects := true,
        fragmentSelector := none }
      (fun _ _ => .ok
        { status := 404, statusText := "Not Found", headers := [],
          url := "http://a.example/", body := "gone" }) =
      .error "Failed to parse response as JSON: Unexpected token in JSON" ∧
    ¬ (200 ≤ 404 ∧ 404 ≤ 299) := by
  exact ⟨rfl, by omega⟩

/-- C3: with a selector matching `N > 1` elements, `fetch-url`'s
html-fragment mode returns the matched elements' outer markup
newline-joined into a single string with `matchCount = N`, while the
`extract-html-fragment` tool returns the same markups as an ordered list
of `N` separate strings with `matchCount = N`.  The match list is an
order-preserving filter of the document's element list (last conjunct),
so both serializations are in document order. -/
theorem multi_match_serialization (pf : String → DomDocument) (afu : FetchUrlArgs)
    (ax : ExtractArgs) (r : HttpResponse) (sel : String) (N : Nat)
    (hty : afu.responseType = .htmlFragment)
    (hsel : strTruthy afu.fragmentSelector = some sel)
    (hxsel : ax.selector = sel) (hxanchor : ax.anchorId = none)
    (hok : respOk r = true)
    (hN : (querySelectorAll (pf r.body) sel).length = N) (h1 : 1 < N) :
    handleFetchUrl pf afu (fun _ _ => .ok r) =
      .ok { status := r.status, statusText := r.statusText, headers := r.headers,
            url := r.url,
            content := String.intercalate "\n"
              ((querySelectorAll (pf r.body) sel).map (fun e => e.outerHTML)),
            encoding := none, matchCount := some N, contentType := some "text/html" } ∧
    handleExtractHtmlFragment pf ax (fun _ _ => .ok r) =
      .ok { status := r.status, statusText := r.statusText, url := r.url,
            selector := sel, matchCount := N,
            html := .multiple
              ((querySelectorAll (pf r.body) sel).map (fun e => e.outerHTML)) } ∧
    List.Sublist (querySelectorAll (pf r.body) sel) (pf r.body).elements := by
  refine ⟨?_, ?_, ?_⟩
  · rw [handleFetchUrl_html_sel pf afu r sel hty hsel]
    rw [if_neg (by omega), if_neg (by omega), hN]
  · rw [handleExtract_no_anchor pf ax r hok (by rw [hxanchor]; rfl)]
    rw [hxsel]
    rw [if_neg (by omega), if_neg (by omega), hN]
  · exact List.filter_sublist _

/-- C3 witness: a document with two matching paragraphs. -/
theorem multi_match_serialization_witness :
    (querySelectorAll
      { elements := [{ outerHTML := "<p>a</p>", idAttr := none, matchedBy := ["p"] },
                     { outerHTML := "<p>b</p>", idAttr := none, matchedBy := ["p"] }] }
      "p").length = 2 ∧
    handleFetchUrl
      (fun _ =>
        { elements := [{ outerHTML := "<p>a</p>", idAttr := none, matchedBy := ["p"] },
                       { outerHTML := "<p>b</p>", idAttr := none, matchedBy := ["p"] }] })
      { url := "http://a.example/", method := "GET", headers := none, body := none,
        timeout := none, responseType := .htmlFragment, followRedirects := true,
        fragmentSelector := some "p" }
      (fun _ _ => .ok
        { status := 200, statusText := "OK", headers := [],
          url := "http://a.example/", body := "<p>a</p><p>b</p>" }) =
      .ok { status := 200, statusText := "OK", headers := [],
            url := "http://a.example/", content := "<p>a</p>\n<p>b</p>",
            encoding := none, matchCount := some 2,
            contentType := some "text/html" } ∧
    handleExtractHtmlFragment
      (fun _ =>
        { elements := [{ outerHTML := "<p>a</p>", idAttr := none, matchedBy := ["p"] },
                       { outerHTML := "<p>b</p>", idAttr := none, matchedBy := ["p"] }] })
      { url := "http://a.example/", selector := "p", anchorId := none,
        method := "GET", headers := none, body := none, timeout := none,
        followRedirects := true }
      (fun _ _ => .ok
        { status := 200, statusText := "OK", headers := [],
          url := "http://a.example/", body := "<p>a</p><p>b</p>" }) =
      .ok { status := 200, statusText := "OK", url := "http://a.example/",
            selector := "p", matchCount := 2,
            html := .multiple ["<p>a</p>", "<p>b</p>"] } := by
  refine ⟨rfl, ?_⟩
  have h := multi_match_serialization
    (fun _ =>
      { elements := [{ outerHTML := "<p>a</p>", idAttr := none, matchedBy := ["p"] },
                     { outerHTML := "<p>b</p>", idAttr := none, matchedBy := ["p"] }] })
    { url := "http://a.example/", method := "GET", headers := none, body := none,
      timeout := none, responseType := .htmlFragment, followRedirects := true,
      fragmentSelector := some "p" }
    { url := "http://a.example/", selector := "p", anchorId := none,
      method := "GET", headers := none, body := none, timeout := none,
      followRedirects := true }
    { status := 200, statusText := "OK", headers := [],
      url := "http://a.example/", body := "<p>a</p><p>b</p>" }
    "p" 2 rfl rfl rfl rfl rfl rfl (by omega)
  exact ⟨h.1, h.2.1⟩

/-- C6: a selector matching zero elements makes both fragment paths fail
with a no-match error whose message contains the selector text, and no
success result ever carries `matchCount = 0` (last two conjuncts, over
every argument bag and capability).  For the `fetch-url` path the
selector is required to be non-empty: the empty string is not a CSS
selector (a real engine raises a syntax error on it rather than
matching zero elements) and is falsy, so `if (args.fragmentSelector)`
skips extraction for it. -/
theorem zero_match_failure (pf : String → DomDocument) (afu : FetchUrlArgs)
    (ax : ExtractArgs) (r : HttpResponse) (sel : String)
    (hty : afu.responseType = .htmlFragment)
    (hfsel : afu.fragmentSelector = some sel) (hne : sel ≠ "")
    (hxsel : ax.selector = sel) (hxanchor : ax.anchorId = none)
    (hok : respOk r = true)
    (hzero : querySelectorAll (pf r.body) sel = []) :
    handleFetchUrl pf afu (fun _ _ => .ok r) =
      .error ("Failed to parse or extract HTML fragment: " ++
        "No elements found matching selector \"" ++ sel ++ "\"") ∧
    (∃ p q, ("Failed to parse or extract HTML fragment: " ++
      "No elements found matching selector \"" ++ sel ++ "\"" : String) =
        p ++ sel ++ q) ∧
    handleExtractHtmlFragment pf ax (fun _ _ => .ok r) =
      .error ("No elements found matching selector \"" ++ sel ++ "\"") ∧
    (∃ p q, ("No elements found matching selector \"" ++ sel ++ "\"" : String) =
      p ++ sel ++ q) ∧
    (∀ (b : FetchUrlArgs) (f : FetchFn) (res : FetchResult),
      handleFetchUrl pf b f = .ok res → res.matchCount ≠ some 0) ∧
    (∀ (b : ExtractArgs) (f : FetchFn) (res : ExtractResult),
      handleExtractHtmlFragment pf b f = .ok res → 0 < res.matchCount) := by
  have hsel : strTruthy afu.fragmentSelector = some sel := by
    rw [hfsel]
    simp [strTruthy, hne]
  refine ⟨?_, ⟨_, _, rfl⟩, ?_, ⟨_, _, rfl⟩, ?_, ?_⟩
  · rw [handleFetchUrl_html_sel pf afu r sel hty hsel]
    rw [if_pos (by rw [hzero]; rfl)]
  · rw [handleExtract_no_anchor pf ax r hok (by rw [hxanchor]; rfl), hxsel]
    rw [if_pos (by rw [hzero]; rfl)]
  · intro b f res h
    cases hf : f b.url (mkFetchUrlOptions b) with
    | error e => simp [handleFetchUrl, hf] at h
    | ok rr =>
      rw [handleFetchUrl_fix_response pf b f rr hf] at h
      cases hrt : b.responseType with
      | text =>
        rw [handleFetchUrl_text pf b rr hrt] at h
        cases h
        simp
      | binary =>
        rw [handleFetchUrl_binary pf b rr hrt] at h
        cases h
        simp
      | json =>
        rw [handleFetchUrl_json pf b rr hrt] at h
        cases hp : jsonParse rr.body with
        | error m => rw [hp] at h; cases h
        | ok v => rw [hp] at h; cases h; simp
      | htmlFragment =>
        cases hbs : strTruthy b.fragmentSelector with
        | none =>
          rw [handleFetchUrl_html_nosel pf b rr hrt hbs] at h
          cases h
          simp
        | some s2 =>
          rw [handleFetchUrl_html_sel pf b rr s2 hrt hbs] at h
          by_cases hz : (querySelectorAll (pf rr.body) s2).length = 0
          · rw [if_pos hz] at h; cases h
          · rw [if_neg hz] at h
            cases h
            simp [hz]
  · intro b f res h
    cases hf : f b.url (mkExtractOptions b) with
    | error e => simp [handleExtractHtmlFragment, hf] at h
    | ok rr =>
      rw [handleExtract_fix_response pf b f rr hf] at h
      cases hok2 : respOk rr with
      | false =>
        rw [handleExtract_not_ok pf b rr hok2] at h
        cases h
      | true =>
        have hform :
            handleExtractHtmlFragment pf b (fun _ _ => .ok rr) =
              (if (querySelectorAll (pf rr.body) b.selector).length = 0 then
                .error ("No elements found matching selector \"" ++ b.selector ++ "\"")
              else
                .ok { status := rr.status, statusText := rr.statusText, url := rr.url,
                      selector := b.selector,
                      matchCount := (querySelectorAll (pf rr.body) b.selector).length,
                      html :=
                        if (querySelectorAll (pf rr.body) b.selector).length = 1 then
                          .single ((querySelectorAll (pf rr.body) b.selector).headD
                            default).outerHTML
                        else
                          .multiple ((querySelectorAll (pf rr.body) b.selector).map
                            (fun e => e.outerHTML)) }) := by
          cases hbs : strTruthy b.anchorId with
          | none => exact handleExtract_no_anchor pf b rr hok2 hbs
          | some aid =>
            cases hgid : getElementById (pf rr.body) aid with
            | none =>
              simp [handleExtractHtmlFragment, hok2, hbs, hgid] at h
            | some e => exact handleExtract_anchor_found pf b rr aid e hok2 hbs hgid
        rw [hform] at h
        by_cases hz : (querySelectorAll (pf rr.body) b.selector).length = 0
        · rw [if_pos hz] at h; cases h
        · rw [if_neg hz] at h
          cases h
          exact Nat.pos_of_ne_zero hz

/-- C6 witness: the selector `q` against a document whose only element
matches `p`. -/
theorem zero_match_failure_witness :
    querySelectorAll
      { elements := [{ outerHTML := "<p>a</p>", idAttr := none, matchedBy := ["p"] }] }
      "q" = [] ∧
    handleFetchUrl
      (fun _ =>
        { elements := [{ outerHTML := "<p>a</p>", idAttr := none, matchedBy := ["p"] }] })
      { url := "http://a.example/", method := "GET", headers := none, body := none,
        timeout := none, responseType := .htmlFragment, followRedirects := true,
        fragmentSelector := some "q" }
      (fun _ _ => .ok
        { status := 200, statusText := "OK", headers := [],
          url := "http://a.example/", body := "<p>a</p>" }) =
      .error "Failed to parse or extract HTML fragment: No elements found matching selector \"q\"" ∧
    handleExtractHtmlFragment
      (fun _ =>
        { elements := [{ outerHTML := "<p>a</p>", idAttr := none, matchedBy := ["p"] }] })
      { url := "http://a.example/", selector := "q", anchorId := none,
        method := "GET", headers := none, body := none, timeout := none,
        followRedirects := true }
      (fun _ _ => .ok
        { status := 200, statusText := "OK", headers := [],
          url := "http://a.example/", body := "<p>a</p>" }) =
      .error "No elements found matching selector \"q\"" := by
  have h := zero_match_failure
    (fun _ =>
      { elements := [{ outerHTML := "<p>a</p>", idAttr := none, matchedBy := ["p"] }] })
    { url := "http://a.example/", method := "GET", headers := none, body := none,
      timeout := none, responseType := .htmlFragment, followRedirects := true,
      fragmentSelector := some "q" }
    { url := "http://a.example/", selector := "q", anchorId := none,
      method := "GET", headers := none, body := none, timeout := none,
      followRedirects := true }
    { status := 200, statusText := "OK", headers := [],
      url := "http://a.example/", body := "<p>a</p>" }
    "q" rfl rfl (by decide) rfl rfl rfl rfl
  exact ⟨rfl, h.1, h.2.2.1⟩

/-- C7: with `responseType = json` and a body that parses, the content is
the parsed value re-serialized with `JSON.stringify(v, null, 2)`, and
re-parsing that content yields the same value as parsing the original
body directly (the parse, re-serialize, parse round trip); a body that
does not parse fails the call with the parser's message behind the
`Failed to parse response as JSON:` tag. -/
theorem json_parse_round_trip (pf : String → DomDocument) (a : FetchUrlArgs)
    (r : HttpResponse) (hty : a.responseType = .json) :
    (∀ v, jsonParse r.body = .ok v →
      handleFetchUrl pf a (fun _ _ => .ok r) =
        .ok { status := r.status, statusText := r.statusText, headers := r.headers,
              url := r.url, content := jsonStringify v, encoding := none,
              matchCount := none, contentType := none } ∧
      jsonParse (jsonStringify v) = .ok v ∧
      jsonParse (jsonStringify v) = jsonParse r.body) ∧
    (∀ m, jsonParse r.body = .error m →
      handleFetchUrl pf a (fun _ _ => .ok r) =
        .error ("Failed to parse response as JSON: " ++ m)) := by
  constructor
  · intro v hv
    refine ⟨?_, jsonParse_jsonStringify v, ?_⟩
    · rw [handleFetchUrl_json pf a r hty, hv]
    · rw [jsonParse_jsonStringify v, hv]
  · intro m hm
    rw [handleFetchUrl_json pf a r hty, hm]

/-- C7 witness: the body `[1, \x7b"a": null\x7d]` round-trips through the
canonical two-space pretty-printed form. -/
theorem json_parse_round_trip_witness :
    jsonParse "[1, \x7b\"a\": null\x7d]" =
      .ok (.arr [.num 1, .obj [("a", .null)]]) ∧
    handleFetchUrl (fun _ => { elements := [] })
      { url := "http://a.example/", method := "GET", headers := none, body := none,
        timeout := none, responseType := .json, followRedirects := true,
        fragmentSelector := none }
      (fun _ _ => .ok
        { status := 200, statusText := "OK", headers := [],
          url := "http://a.example/", body := "[1, \x7b\"a\": null\x7d]" }) =
      .ok { status := 200, statusText := "OK", headers := [],
            url := "http://a.example/",
            content := jsonStringify (.arr [.num 1, .obj [("a", .null)]]),
            encoding := none, matchCount := none, contentType := none } ∧
    jsonParse (jsonStringify (.arr [.num 1, .obj [("a", .null)]])) =
      .ok (.arr [.num 1, .obj [("a", .null)]]) := by
  refine ⟨rfl, ?_, ?_⟩
  · exact ((json_parse_round_trip (fun _ => { elements := [] })
      { url := "http://a.example/", method := "GET", headers := none, body := none,
        timeout := none, responseType := .json, followRedirects := true,
        fragmentSelector := none }
      { status := 200, statusText := "OK", headers := [],
        url := "http://a.example/", body := "[1, \x7b\"a\": null\x7d]" }
      rfl).1 (.arr [.num 1, .obj [("a", .null)]]) rfl).1
  · exact ((json_parse_round_trip (fun _ => { elements := [] })
      { url := "http://a.example/", method := "GET", headers := none, body := none,
        timeout := none, responseType := .json, followRedirects := true,
        fragmentSelector := none }
      { status := 200, statusText := "OK", headers := [],
        url := "http://a.example/", body := "[1, \x7b\"a\": null\x7d]" }
      rfl).1 (.arr [.num 1, .obj [("a", .null)]]) rfl).2.1

theorem fetchExchange_manual (net : Network) (fuel : Nat) (url : String)
    (opts : ReqOptions) (pre : PreResponse) (hop : opts.redirect = .manual)
    (hnet : net url = some pre) :
    fetchExchange net (fuel + 1) url opts =
      .ok { status := pre.status, statusText := pre.statusText,
            headers := pre.headers, url := url, body := pre.body } := by
  simp [fetchExchange, hnet, hop]

theorem fetchExchange_follow_spec (net : Network) :
    ∀ (fuel : Nat) (url : String) (opts : ReqOptions), opts.redirect = .follow →
    ∀ r, fetchExchange net fuel url opts = .ok r →
      RedirectReaches net url r.url ∧ redirectsTo net r.url = none ∧
      ∃ p2, net r.url = some p2 ∧ r.status = p2.status ∧
        r.statusText = p2.statusText ∧ r.body = p2.body := by
  intro fuel
  induction fuel with
  | zero =>
    intro url opts hop r h
    simp [fetchExchange] at h
  | succ fuel ih =>
    intro url opts hop r h
    cases hnet : net url with
    | none => simp [fetchExchange, hnet] at h
    | some pre =>
      by_cases hred : isRedirectStatus pre.status = true
      · cases hloc : getHeaderVal pre.headers "location" with
        | some loc =>
          simp only [fetchExchange, hnet, hop, hred, hloc, if_true, ite_true] at h
          obtain ⟨hreach, hterm, hp⟩ := ih loc opts hop r h
          refine ⟨RedirectReaches.step url loc r.url ?_ hreach, hterm, hp⟩
          simp [redirectsTo, hnet, hred, hloc]
        | none =>
          simp only [fetchExchange, hnet, hop, hred, hloc, if_true, ite_true] at h
          cases h
          refine ⟨RedirectReaches.refl url, ?_, pre, hnet, rfl, rfl, rfl⟩
          simp [redirectsTo, hnet, hred, hloc]
      · simp only [fetchExchange, hnet, hop, hred, if_false, ite_false,
          Bool.not_eq_true] at h
        cases h
        refine ⟨RedirectReaches.refl url, ?_, pre, hnet, rfl, rfl, rfl⟩
        simp [redirectsTo, hnet, hred]

theorem handleFetchUrl_final_url (pf : String → DomDocument) (a : FetchUrlArgs)
    (f : FetchFn) (res : FetchResult) (h : handleFetchUrl pf a f = .ok res) :
    ∃ rr, f a.url (mkFetchUrlOptions a) = .ok rr ∧ res.url = rr.url ∧
      res.status = rr.status := by
  cases hf : f a.url (mkFetchUrlOptions a) with
  | error e => simp [handleFetchUrl, hf] at h
  | ok rr =>
    refine ⟨rr, rfl, ?_⟩
    rw [handleFetchUrl_fix_response pf a f rr hf] at h
    cases hrt : a.responseType with
    | text =>
      rw [handleFetchUrl_text pf a rr hrt] at h
      cases h
      exact ⟨rfl, rfl⟩
    | binary =>
      rw [handleFetchUrl_binary pf a rr hrt] at h
      cases h
      exact ⟨rfl, rfl⟩
    | json =>
      rw [handleFetchUrl_json pf a rr hrt] at h
      cases hp : jsonParse rr.body with
      | error m => rw [hp] at h; cases h
      | ok v => rw [hp] at h; cases h; exact ⟨rfl, rfl⟩
    | htmlFragment =>
      cases hbs : strTruthy a.fragmentSelector with
      | none =>
        rw [handleFetchUrl_html_nosel pf a rr hrt hbs] at h
        cases h
        exact ⟨rfl, rfl⟩
      | some s2 =>
        rw [handleFetchUrl_html_sel pf a rr s2 hrt hbs] at h
        by_cases hz : (querySelectorAll (pf rr.body) s2).length = 0
        · rw [if_pos hz] at h; cases h
        · rw [if_neg hz] at h; cases h; exact ⟨rfl, rfl⟩

theorem handleExtract_final_url (pf : String → DomDocument) (a : ExtractArgs)
    (f : FetchFn) (res : ExtractResult) (h : handleExtractHtmlFragment pf a f = .ok res) :
    ∃ rr, f a.url (mkExtractOptions a) = .ok rr ∧ res.url = rr.url ∧
      res.status = rr.status := by
  cases hf : f a.url (mkExtractOptions a) with
  | error e => simp [handleExtractHtmlFragment, hf] at h
  | ok rr =>
    refine ⟨rr, rfl, ?_⟩
    rw [handleExtract_fix_response pf a f rr hf] at h
    cases hok2 : respOk rr with
    | false =>
      rw [handleExtract_not_ok pf a rr hok2] at h
      cases h
    | true =>
      have hform :
          handleExtractHtmlFragment pf a (fun _ _ => .ok rr) =
            (if (querySelectorAll (pf rr.body) a.selector).length = 0 then
              .error ("No elements found matching selector \"" ++ a.selector ++ "\"")
            else
              .ok { status := rr.status, statusText := rr.statusText, url := rr.url,
                    selector := a.selector,
                    matchCount := (querySelectorAll (pf rr.body) a.selector).length,
                    html :=
                      if (querySelectorAll (pf rr.body) a.selector).length = 1 then
                        .single ((querySelectorAll (pf rr.body) a.selector).headD
                          default).outerHTML
                      else
                        .multiple ((querySelectorAll (pf rr.body) a.selector).map
                          (fun e => e.outerHTML)) }) := by
        cases hbs : strTruthy a.anchorId with
        | none => exact handleExtract_no_anchor pf a rr hok2 hbs
        | some aid =>
          cases hgid : getElementById (pf rr.body) aid with
          | none => simp [handleExtractHtmlFragment, hok2, hbs, hgid] at h
          | some e => exact handleExtract_anchor_found pf a rr aid e hok2 hbs hgid
      rw [hform] at h
      by_cases hz : (querySelectorAll (pf rr.body) a.selector).length = 0
      · rw [if_pos hz] at h; cases h
      · rw [if_neg hz] at h; cases h; exact ⟨rfl, rfl⟩

theorem isRedirectStatus_not_ok (s : Nat) (h : isRedirectStatus s = true) :
    ¬ (200 ≤ s ∧ s ≤ 299) := by
  simp [isRedirectStatus] at h
  omega

/-- C8 (amended): both handlers translate `followRedirects` into the
client's redirect mode.  Under `manual` the exchange returns the first
answer (a 3xx included) as-is with its url equal to the original request
URL; under `follow` a completed exchange carries the last URL reached by
the redirect chain (a URL reachable from the request URL whose answer
redirects no further) and that URL's answer.  Both handlers copy the
exchange's final url and status into a successful result unchanged.  The
amendment concerns `extract-html-fragment` with `followRedirects = false`
on a redirect answer: a 3xx is not a 2xx, so the strict status gate turns
it into an HTTP error — the call produces no result whose url could
equal the original request URL, contrary to the claim. -/
theorem redirect_policy (net : Network) (fuel : Nat) (pf : String → DomDocument)
    (afu : FetchUrlArgs) (ax : ExtractArgs) (url : String) (opts : ReqOptions)
    (pre : PreResponse) (r : HttpResponse) :
    ((mkFetchUrlOptions afu).redirect =
      if afu.followRedirects then RedirectMode.follow else RedirectMode.manual) ∧
    ((mkExtractOptions ax).redirect =
      if ax.followRedirects then RedirectMode.follow else RedirectMode.manual) ∧
    (opts.redirect = .manual → net url = some pre →
      fetchExchange net (fuel + 1) url opts =
        .ok { status := pre.status, statusText := pre.statusText,
              headers := pre.headers, url := url, body := pre.body }) ∧
    (opts.redirect = .follow → fetchExchange net fuel url opts = .ok r →
      RedirectReaches net url r.url ∧ redirectsTo net r.url = none ∧
      ∃ p2, net r.url = some p2 ∧ r.status = p2.status) ∧
    (∀ (f : FetchFn) (res : FetchResult), handleFetchUrl pf afu f = .ok res →
      ∃ rr, f afu.url (mkFetchUrlOptions afu) = .ok rr ∧ res.url = rr.url ∧
        res.status = rr.status) ∧
    (∀ (f : FetchFn) (res : ExtractResult),
      handleExtractHtmlFragment pf ax f = .ok res →
      ∃ rr, f ax.url (mkExtractOptions ax) = .ok rr ∧ res.url = rr.url ∧
        res.status = rr.status) ∧
    (ax.followRedirects = false → net ax.url = some pre →
      isRedirectStatus pre.status = true →
      handleExtractHtmlFragment pf ax (fun u o => fetchExchange net (fuel + 1) u o) =
        .error ("Failed to fetch URL: HTTP " ++ toString pre.status ++ " " ++
          pre.statusText)) := by
  refine ⟨rfl, rfl, ?_, ?_, ?_, ?_, ?_⟩
  · intro hop hnet
    exact fetchExchange_manual net fuel url opts pre hop hnet
  · intro hop h
    obtain ⟨hreach, hterm, p2, hnet2, hst, _⟩ :=
      fetchExchange_follow_spec net fuel url opts hop r h
    exact ⟨hreach, hterm, p2, hnet2, hst⟩
  · intro f res h
    exact handleFetchUrl_final_url pf afu f res h
  · intro f res h
    exact handleExtract_final_url pf ax f res h
  · intro hman hnet hred
    have hop : (mkExtractOptions ax).redirect = .manual := by
      simp [mkExtractOptions, hman]
    have hx := fetchExchange_manual net fuel ax.url (mkExtractOptions ax) pre hop hnet
    rw [handleExtract_fix_response pf ax _ _ hx]
    apply handleExtract_not_ok
    simp only [respOk]
    exact decide_eq_false (isRedirectStatus_not_ok pre.status hred)

/-- C8 witness: over a two-URL network whose first URL answers 302 with a
location header, the manual exchange returns the 302 as-is with the
original URL, and with `followRedirects = false` the extraction tool
fails with the 302 in its message. -/
theorem redirect_policy_witness :
    fetchExchange
      (netOf
        [("http://a.example/",
          { status := 302, statusText := "Found",
            headers := [("location", "http://b.example/")], body := "" }),
         ("http://b.example/",
          { status := 200, statusText := "OK", headers := [], body := "<p>hi</p>" })])
      21 "http://a.example/"
      { method := "GET", headers := [], body := none, redirect := .manual,
        headersTimeout := none, bodyTimeout := none } =
      .ok { status := 302, statusText := "Found",
            headers := [("location", "http://b.example/")],
            url := "http://a.example/", body := "" } ∧
    handleExtractHtmlFragment (fun _ => { elements := [] })
      { url := "http://a.example/", selector := "p", anchorId := none,
        method := "GET", headers := none, body := none, timeout := none,
        followRedirects := false }
      (fun u o =>
        fetchExchange
          (netOf
            [("http://a.example/",
              { status := 302, statusText := "Found",
                headers := [("location", "http://b.example/")], body := "" }),
             ("http://b.example/",
              { status := 200, statusText := "OK", headers := [],
                body := "<p>hi</p>" })])
          21 u o) =
      .error "Failed to fetch URL: HTTP 302 Found" := by
  have h := redirect_policy
    (netOf
      [("http://a.example/",
        { status := 302, statusText := "Found",
          headers := [("location", "http://b.example/")], body := "" }),
       ("http://b.example/",
        { status := 200, statusText := "OK", headers := [], body := "<p>hi</p>" })])
    20 (fun _ => { elements := [] })
    { url := "http://a.example/", method := "GET", headers := none, body := none,
      timeout := none, responseType := .text, followRedirects := true,
      fragmentSelector := none }
    { url := "http://a.example/", selector := "p", anchorId := none,
      method := "GET", headers := none, body := none, timeout := none,
      followRedirects := false }
    "http://a.example/"
    { method := "GET", headers := [], body := none, redirect := .manual,
      headersTimeout := none, bodyTimeout := none }
    { status := 302, statusText := "Found",
      headers := [("location", "http://b.example/")], body := "" }
    { status := 200, statusText := "OK", headers := [], url := "http://b.example/",
      body := "<p>hi</p>" }
  exact ⟨h.2.2.1 rfl rfl, h.2.2.2.2.2.2 rfl rfl rfl⟩

/-- C8 counterexample: `extract-html-fragment` with
`followRedirects = false` against a URL answering 302 does not return the
3xx as a result whose url is the original request URL — it returns an
error envelope with no url at all, because the strict status gate
rejects the non-2xx answer. -/
theorem extract_manual_redirect_has_no_result :
    extractHtmlFragmentTool (fun _ => { elements := [] })
      { url := "http://a.example/", selector := "p", anchorId := none,
        method := "GET", headers := none, body := none, timeout := none,
        followRedirects := false }
      (fun u o =>
        fetchExchange
          (netOf
            [("http://a.example/",
              { status := 302, statusText := "Found",
                headers := [("location", "http://b.example/")], body := "" }),
             ("http://b.example/",
              { status := 200, statusText := "OK", headers := [],
                body := "<p>hi</p>" })])
          21 u o) =
      { isError := true,
        text := "Error extracting HTML fragment: Failed to fetch URL: HTTP 302 Found" } ∧
    isRedirectStatus 302 = true := by
  exact ⟨rfl, rfl⟩
